import Mathlib

/-!
# ExcelSort: `SortTableByColumn` (dllmain.cpp)

A shallow embedding of the exported routine `SortTableByColumn` and of the
pieces of the automation API it touches, followed by theorems about it.

Conventions of the embedding

* A pointer argument that may be null is an `Option`.
* A cell is a `VARIANT`: its type tag `vt`, the eight bytes at the start of its
  value union (`raw`, little endian, so `lVal` is the low four bytes and
  `date`/`dblVal` are all eight), and `bstr`, the wide string that a conversion
  of the cell to `VT_BSTR` yields (`none` when that conversion fails, which
  `_bstr_t` turns into a C++ exception).
* A `SAFEARRAY` records what the four bound queries report (`none` when the
  query fails), its element store, and for every index whether
  `SafeArrayGetElement` / `SafeArrayPutElement` succeed there.
* A C++ exception inside the `try` block is `none` in the `Option` monad; the
  `catch (...)` turns it into status 5.
* `LONG` arithmetic is integer arithmetic wrapped to 32 bits (`wrapLong`).
* `std::sort` is a library routine; it is embedded as the insertion sort that
  the library runs on short ranges (`std_sort`).
-/

namespace ExcelSort

/-! ## Tags and machine integers -/

/-- Tag of a 32-bit integer cell. -/
def VT_I4 : Nat := 3
/-- Tag of a 64-bit floating-point cell. -/
def VT_R8 : Nat := 5
/-- Tag of a date cell (a floating-point day count). -/
def VT_DATE : Nat := 7
/-- Tag of a string cell. -/
def VT_BSTR : Nat := 8
/-- Tag of a generic tagged value (the element type of the expected array). -/
def VT_VARIANT : Nat := 12
/-- Flag bit: the value is an array. -/
def VT_ARRAY : Nat := 0x2000
/-- Flag bit: the value is passed by reference. -/
def VT_BYREF : Nat := 0x4000

/-- Two's-complement wrap of an integer into the range of a 32-bit `LONG`. -/
def wrapLong (n : Int) : Int := (n + 2147483648) % 4294967296 - 2147483648

/-- The integer lies in the range of a 32-bit `LONG`. -/
def InLong (n : Int) : Prop := -2147483648 ≤ n ∧ n ≤ 2147483647

instance (n : Int) : Decidable (InLong n) :=
  inferInstanceAs (Decidable (-2147483648 ≤ n ∧ n ≤ 2147483647))

/-! ## Cells -/

/-- A tagged cell value (`VARIANT` / `_variant_t`). -/
structure VARIANT where
  /-- The type tag. -/
  vt : Nat
  /-- The first eight bytes of the value union, as an unsigned 64-bit number. -/
  raw : Nat
  /-- The characters produced by converting the cell to a string, `none` if the conversion fails. -/
  bstr : Option (List Nat)
deriving DecidableEq, Repr

/-- A default-constructed `_variant_t` (tag `VT_EMPTY`). -/
def VARIANT.empty : VARIANT := ⟨0, 0, some []⟩

/-- The union member `lVal`: the low four bytes read as a signed 32-bit integer. -/
def VARIANT.lVal (v : VARIANT) : Int := wrapLong ((v.raw % 4294967296 : Nat) : Int)

/-- The bit pattern is an IEEE-754 binary64 NaN. -/
def isNaN (b : Nat) : Bool :=
  decide ((b / 4503599627370496) % 2048 = 2047) && decide (b % 4503599627370496 ≠ 0)

/-- Order key of a non-NaN binary64 bit pattern: sign and magnitude as an integer. -/
def dblKey (b : Nat) : Int :=
  if (b / 9223372036854775808) % 2 = 0 then ((b % 9223372036854775808 : Nat) : Int)
  else -((b % 9223372036854775808 : Nat) : Int)

/-- The comparison `x < y` of two binary64 values given by their bit patterns
(the union member `date` of both operands). -/
def dblLess (x y : Nat) : Bool :=
  !isNaN x && !isNaN y && decide (dblKey x < dblKey y)

/-- The C routine `wcscmp` on two wide strings given by their characters before the terminator. -/
def wcscmp : List Nat → List Nat → Int
  | [], [] => 0
  | [], _ :: _ => -1
  | _ :: _, [] => 1
  | x :: xs, y :: ys => if x < y then -1 else if y < x then 1 else wcscmp xs ys

/-! ## Rows and the comparator -/

/-- One extracted row of the table. -/
structure RowData where
  /-- The cells of the row, left to right. -/
  cells : List VARIANT
deriving DecidableEq, Repr

/-- The key cell `cells[colIndex - 1]` of a row. -/
def keyCell (colIndex : Int) (a : RowData) : VARIANT :=
  a.cells.getD (colIndex - 1).toNat VARIANT.empty

/-- The comparison of two key cells made by the lambda handed to `std::sort`;
`none` when a string conversion raises. -/
def cellLess (va vb : VARIANT) : Option Bool :=
  if va.vt = VT_I4 ∧ vb.vt = VT_I4 then
    some (decide (va.lVal < vb.lVal))
  else if va.vt = VT_R8 ∨ va.vt = VT_I4 ∨ va.vt = VT_DATE then
    some (dblLess va.raw vb.raw)
  else
    match va.bstr with
    | none => none
    | some sa =>
      match vb.bstr with
      | none => none
      | some sb => some (decide (wcscmp sa sb < 0))

/-- The lambda handed to `std::sort`, capturing `colIndex`. -/
def compareRows (colIndex : Int) (a b : RowData) : Option Bool :=
  cellLess (keyCell colIndex a) (keyCell colIndex b)

/-! ## `std::sort` -/

/-- Backward scan of one insertion: the ordered prefix is held last element first,
and `val` moves down past every element it is less than. -/
def insertScan {α : Type} (pred : α → α → Option Bool) (val : α) : List α → Option (List α)
  | [] => some [val]
  | prev :: rest =>
    match pred val prev with
    | none => none
    | some true => (insertScan pred val rest).map (fun r => prev :: r)
    | some false => some (val :: prev :: rest)

/-- One insertion: a value less than the first element goes to the front,
any other value is placed by the backward scan. -/
def insertStep {α : Type} (pred : α → α → Option Bool) (sortedRev : List α) (val : α) :
    Option (List α) :=
  match sortedRev.getLast? with
  | none => some [val]
  | some first =>
    match pred val first with
    | none => none
    | some true => some (sortedRev ++ [val])
    | some false => insertScan pred val sortedRev

/-- The insertion loop: `sortedRev` is the ordered part (last element first),
the second list is what remains to insert. -/
def insertionLoop {α : Type} (pred : α → α → Option Bool) : List α → List α → Option (List α)
  | sortedRev, [] => some sortedRev.reverse
  | sortedRev, x :: xs =>
    match insertStep pred sortedRev x with
    | none => none
    | some acc => insertionLoop pred acc xs

/-- The library routine `std::sort(first, last, pred)`; `none` when `pred` raises. -/
def std_sort {α : Type} (pred : α → α → Option Bool) (l : List α) : Option (List α) :=
  insertionLoop pred [] l

/-! ## The array -/

/-- A two-dimensional array of cells as seen through the array API. -/
structure SAFEARRAY where
  /-- Result of `SafeArrayGetLBound(sa, 1, _)`, `none` when it fails. -/
  lBound1 : Option Int
  /-- Result of `SafeArrayGetUBound(sa, 1, _)`, `none` when it fails. -/
  uBound1 : Option Int
  /-- Result of `SafeArrayGetLBound(sa, 2, _)`, `none` when it fails. -/
  lBound2 : Option Int
  /-- Result of `SafeArrayGetUBound(sa, 2, _)`, `none` when it fails. -/
  uBound2 : Option Int
  /-- The stored element at a (row, column) index. -/
  elems : Int → Int → VARIANT
  /-- Whether `SafeArrayGetElement` succeeds at the index. -/
  getOk : Int → Int → Bool
  /-- Whether `SafeArrayPutElement` succeeds at the index. -/
  putOk : Int → Int → Bool

/-- The call `SafeArrayGetElement(sa, {r, c}, &val)` with its result code dropped:
`val` receives the element on success and keeps its value otherwise. -/
def SafeArrayGetElement (sa : SAFEARRAY) (r c : Int) (val : VARIANT) : VARIANT :=
  if sa.getOk r c then sa.elems r c else val

/-- The call `SafeArrayPutElement(sa, {r, c}, &v)` with its result code dropped:
the element is stored on success and the array is untouched otherwise. -/
def SafeArrayPutElement (sa : SAFEARRAY) (r c : Int) (v : VARIANT) : SAFEARRAY :=
  if sa.putOk r c then
    { sa with elems := fun r1 c1 => if r1 = r ∧ c1 = c then v else sa.elems r1 c1 }
  else sa

/-- The inner extraction loop over the columns `js` of grid row `i`; `val` is the
variable reused for every read. -/
def extractCells (sa : SAFEARRAY) (l_Boundrow l_Boundcol : Int) (i : Nat) :
    List Nat → VARIANT → List VARIANT × VARIANT
  | [], val => ([], val)
  | j :: js, val =>
    let v := SafeArrayGetElement sa (wrapLong (i + l_Boundrow)) (wrapLong (j + l_Boundcol)) val
    let rest := extractCells sa l_Boundrow l_Boundcol i js v
    (v :: rest.1, rest.2)

/-- The outer extraction loop over the rows `is`. -/
def extractRows (sa : SAFEARRAY) (l_Boundrow l_Boundcol : Int) (cols : Nat) :
    List Nat → VARIANT → List RowData
  | [], _ => []
  | i :: is, val =>
    let row := extractCells sa l_Boundrow l_Boundcol i (List.range cols) val
    ⟨row.1⟩ :: extractRows sa l_Boundrow l_Boundcol cols is row.2

/-- The inner write-back loop over the columns `js` of grid row `i`. -/
def writeCells (l_Boundrow l_Boundcol : Int) (i : Nat) (cells : List VARIANT) :
    List Nat → SAFEARRAY → SAFEARRAY
  | [], sa => sa
  | j :: js, sa =>
    writeCells l_Boundrow l_Boundcol i cells js
      (SafeArrayPutElement sa (wrapLong (i + l_Boundrow)) (wrapLong (j + l_Boundcol))
        (cells.getD j VARIANT.empty))

/-- The outer write-back loop over the rows `is`. -/
def writeRows (l_Boundrow l_Boundcol : Int) (cols : Nat) (rowVector : List RowData) :
    List Nat → SAFEARRAY → SAFEARRAY
  | [], sa => sa
  | i :: is, sa =>
    writeRows l_Boundrow l_Boundcol cols rowVector is
      (writeCells l_Boundrow l_Boundcol i (rowVector.getD i ⟨[]⟩).cells (List.range cols) sa)

/-- The part of `SortTableByColumn` after the container check: bound queries,
column check, and the `try` block. Returns the status and the array afterwards. -/
def sortArray (sa : SAFEARRAY) (colIndex : Int) : Int × SAFEARRAY :=
  match sa.lBound1, sa.uBound1, sa.lBound2, sa.uBound2 with
  | some l_Boundrow, some u_Boundrow, some l_Boundcol, some u_Boundcol =>
    let rows := wrapLong (u_Boundrow - l_Boundrow + 1)
    let cols := wrapLong (u_Boundcol - l_Boundcol + 1)
    if colIndex < 1 ∨ colIndex > cols then (7, sa)
    else if rows < 0 then (5, sa)
    else
      let rowVector :=
        extractRows sa l_Boundrow l_Boundcol cols.toNat (List.range rows.toNat) VARIANT.empty
      match std_sort (compareRows colIndex) rowVector with
      | none => (5, sa)
      | some sorted =>
        (0, writeRows l_Boundrow l_Boundcol cols.toNat sorted (List.range rows.toNat) sa)
  | _, _, _, _ => (3, sa)

/-! ## The table argument -/

/-- The variant that holds the array: its tag and its array pointer. -/
structure ArrayVariant where
  /-- The type tag. -/
  vt : Nat
  /-- The array the variant holds. -/
  parray : SAFEARRAY

/-- The variant passed by the host. Its union is read as `pvarVal` when the tag
has `VT_BYREF` and as `parray` otherwise. -/
structure TableVariant where
  /-- The type tag. -/
  vt : Nat
  /-- The array held directly. -/
  parray : SAFEARRAY
  /-- The variant referred to. -/
  pvarVal : ArrayVariant

/-- The tag has the by-reference flag. -/
def isByRef (vt : Nat) : Bool := decide (vt &&& VT_BYREF ≠ 0)

/-- `varArray`: the variant that is inspected, after following one reference. -/
def varArray (tableVariant : TableVariant) : ArrayVariant :=
  if isByRef tableVariant.vt then tableVariant.pvarVal
  else ⟨tableVariant.vt, tableVariant.parray⟩

/-- The container test `(vt & VT_ARRAY) && (vt & VT_VARIANT)`. -/
def acceptsContainer (vt : Nat) : Bool :=
  decide (vt &&& VT_ARRAY ≠ 0) && decide (vt &&& VT_VARIANT ≠ 0)

/-- The table argument with the array it holds replaced. -/
def withArray (tableVariant : TableVariant) (sa : SAFEARRAY) : TableVariant :=
  if isByRef tableVariant.vt then
    { tableVariant with pvarVal := { tableVariant.pvarVal with parray := sa } }
  else { tableVariant with parray := sa }

/-- The exported routine. The result is the value left in `*errorCode` and the
table argument after the call. -/
def SortTableByColumn (tableVariant : Option TableVariant) (selectedColIndex : Option Int) :
    Int × Option TableVariant :=
  match tableVariant, selectedColIndex with
  | some tv, some colIndex =>
    if acceptsContainer (varArray tv).vt then
      let r := sortArray (varArray tv).parray colIndex
      (r.1, some (withArray tv r.2))
    else (2, some tv)
  | _, _ => (1, tableVariant)

/-! ## Reading a grid -/

/-- The grid under the table argument. -/
def gridOf (tableVariant : TableVariant) : SAFEARRAY := (varArray tableVariant).parray

/-- Row count `upper - lower + 1` of dimension 1 (0 when a bound is missing or the count is negative). -/
def rowCount (sa : SAFEARRAY) : Nat :=
  match sa.lBound1, sa.uBound1 with
  | some l, some u => (u - l + 1).toNat
  | _, _ => 0

/-- Column count `upper - lower + 1` of dimension 2 (0 when a bound is missing or the count is negative). -/
def columnCount (sa : SAFEARRAY) : Nat :=
  match sa.lBound2, sa.uBound2 with
  | some l, some u => (u - l + 1).toNat
  | _, _ => 0

/-- The rows of the grid, top to bottom, each left to right. -/
def gridRows (sa : SAFEARRAY) : List RowData :=
  (List.range (rowCount sa)).map fun (i : Nat) =>
    ⟨(List.range (columnCount sa)).map fun (j : Nat) =>
      sa.elems ((i : Int) + sa.lBound1.getD 0) ((j : Int) + sa.lBound2.getD 0)⟩

/-- The order kept by the reversed ordered part of the insertion sort: `x` is not less than `y`. -/
def NotLess {α : Type} (pred : α → α → Option Bool) (x y : α) : Prop := pred x y = some false

/-! ## Well-formed grids -/

/-- All four bound queries succeed and report the given bounds. -/
structure Retrievable (sa : SAFEARRAY) (lr ur lc uc : Int) : Prop where
  /-- Lower bound of dimension 1. -/
  lBound1 : sa.lBound1 = some lr
  /-- Upper bound of dimension 1. -/
  uBound1 : sa.uBound1 = some ur
  /-- Lower bound of dimension 2. -/
  lBound2 : sa.lBound2 = some lc
  /-- Upper bound of dimension 2. -/
  uBound2 : sa.uBound2 = some uc

/-- The grid invariants of the data model: the bounds are retrievable `LONG`s and
both counts `upper - lower + 1` are non-negative `LONG`s. -/
structure GridBounds (sa : SAFEARRAY) (lr ur lc uc : Int) extends
    Retrievable sa lr ur lc uc : Prop where
  /-- The bounds are `LONG` values. -/
  inLong : InLong lr ∧ InLong ur ∧ InLong lc ∧ InLong uc
  /-- The row count is a non-negative `LONG`. -/
  rows : 0 ≤ ur - lr + 1 ∧ ur - lr + 1 ≤ 2147483647
  /-- The column count is a non-negative `LONG`. -/
  cols : 0 ≤ uc - lc + 1 ∧ uc - lc + 1 ≤ 2147483647

/-- A valid grid: the grid invariants hold and every element inside the bounds
can be read and written through the array API. -/
structure ValidGrid (sa : SAFEARRAY) (lr ur lc uc : Int) extends
    GridBounds sa lr ur lc uc : Prop where
  /-- Element access succeeds inside the bounds. -/
  access : ∀ r c, lr ≤ r → r ≤ ur → lc ≤ c → c ≤ uc →
    sa.getOk r c = true ∧ sa.putOk r c = true

/-- The target column of the grid read top to bottom: grid column
`lowerCol + colIndex - 1`. -/
def targetColumn (sa : SAFEARRAY) (colIndex : Int) : List VARIANT :=
  (List.range (rowCount sa)).map fun (i : Nat) =>
    sa.elems ((i : Int) + sa.lBound1.getD 0) (colIndex - 1 + sa.lBound2.getD 0)

/-! ## Observations and sample tables -/

/-- The rows of the table after a call (empty when the table reference is absent). -/
def rowsAfter (res : Int × Option TableVariant) : List RowData :=
  match res.2 with
  | some tv => gridRows (gridOf tv)
  | none => []

/-- The rows are ordered by the comparator on the target column: for no adjacent pair
does the comparator report the later row as less than the earlier one. -/
def orderedBy (colIndex : Int) : List RowData → Bool
  | a :: b :: rest =>
    decide (compareRows colIndex b a ≠ some true) && orderedBy colIndex (b :: rest)
  | _ => true

/-- A grid with the given lower bounds that stores `rows`, each of `cols` cells, and whose
element accesses all succeed. -/
def sampleGrid (lr lc : Int) (cols : Nat) (rows : List (List VARIANT)) : SAFEARRAY :=
  { lBound1 := some lr
    uBound1 := some (lr + rows.length - 1)
    lBound2 := some lc
    uBound2 := some (lc + cols - 1)
    elems := fun r c => (rows.getD (r - lr).toNat []).getD (c - lc).toNat VARIANT.empty
    getOk := fun _ _ => true
    putOk := fun _ _ => true }

/-- A table argument holding the grid by value, tagged as an array of tagged values. -/
def sampleTable (sa : SAFEARRAY) : TableVariant :=
  ⟨VT_ARRAY ||| VT_VARIANT, sa, ⟨0, sa⟩⟩

/-- An integer cell with the given non-negative value and decimal text. -/
def intCell (n : Nat) (text : List Nat) : VARIANT := ⟨VT_I4, n, some text⟩

/-- A 4 x 3 integer grid with lower bounds (0, 5) whose second column reads 30, 10, 20, 10. -/
def intGrid : SAFEARRAY :=
  sampleGrid 0 5 3
    [[intCell 1 [49], intCell 30 [51, 48], intCell 101 [49, 48, 49]],
     [intCell 2 [50], intCell 10 [49, 48], intCell 102 [49, 48, 50]],
     [intCell 3 [51], intCell 20 [50, 48], intCell 103 [49, 48, 51]],
     [intCell 4 [52], intCell 10 [49, 48], intCell 104 [49, 48, 52]]]

/-- The float cell -1.0 with its text "-1". -/
def negOneCell : VARIANT := ⟨VT_R8, 0xBFF0000000000000, some [45, 49]⟩

/-- A string cell "(none)"; its union holds the string pointer. -/
def noneTextCell : VARIANT := ⟨VT_BSTR, 0x000001F4A2B3C4D0, some [40, 110, 111, 110, 101, 41]⟩

/-- A 2 x 1 grid (lower bounds 1, 1) whose only column holds -1.0 above the string "(none)". -/
def mixedGrid : SAFEARRAY := sampleGrid 1 1 1 [[negOneCell], [noneTextCell]]

/-- An error cell (the host's #N/A, tag VT_ERROR), which has no conversion to text. -/
def errorCell : VARIANT := ⟨10, 0x800A07FA, none⟩

/-- A 2 x 1 grid (lower bounds 1, 1) whose only column holds two error cells. -/
def errorGrid : SAFEARRAY := sampleGrid 1 1 1 [[errorCell], [errorCell]]

/-- A 2 x 1 integer grid (lower bounds 1, 1) holding 7 above 3. -/
def twoIntGrid : SAFEARRAY := sampleGrid 1 1 1 [[intCell 7 [55]], [intCell 3 [51]]]

/-- The grid `twoIntGrid` with the read of its second row failing. -/
def readFailGrid : SAFEARRAY :=
  { twoIntGrid with getOk := fun r c => !(decide (r = 2) && decide (c = 1)) }

/-- The grid `twoIntGrid` with the write to its first row failing. -/
def writeFailGrid : SAFEARRAY :=
  { twoIntGrid with putOk := fun r c => !(decide (r = 1) && decide (c = 1)) }

/-- The grid `twoIntGrid` with the upper bound of its second dimension not retrievable. -/
def noBoundGrid : SAFEARRAY := { twoIntGrid with uBound2 := none }

/-- A table argument tagged as an array of doubles (`VT_ARRAY | VT_R8`). -/
def doublesTable : TableVariant := ⟨VT_ARRAY ||| VT_R8, twoIntGrid, ⟨0, twoIntGrid⟩⟩

/-! ## Further observations and sample cells -/

/-- The shape of a grid: what the four bound queries report, and the two counts. -/
def gridShape (sa : SAFEARRAY) :
    Option Int × Option Int × Option Int × Option Int × Nat × Nat :=
  (sa.lBound1, sa.uBound1, sa.lBound2, sa.uBound2, rowCount sa, columnCount sa)

/-- The rows are in strictly ascending comparator order on the target column: the
comparator reports every row as less than the next one. -/
def ascendingBy (colIndex : Int) : List RowData → Bool
  | a :: b :: rest =>
    decide (compareRows colIndex a b = some true) && ascendingBy colIndex (b :: rest)
  | _ => true

/-- The value of a binary64 bit pattern scaled by 2^1074, an integer (infinities are read
as the next power of two, NaN patterns have no meaning here). -/
def dblScaled (b : Nat) : Int :=
  let e := (b / 4503599627370496) % 2048
  let frac := b % 4503599627370496
  let mag : Nat := if e = 0 then frac else (4503599627370496 + frac) * 2 ^ (e - 1)
  if (b / 9223372036854775808) % 2 = 0 then (mag : Int) else -(mag : Int)

/-- The numeric comparison `n < y` of an integer with the binary64 value of bit pattern `y`. -/
def intLessDbl (n : Int) (y : Nat) : Bool :=
  !isNaN y && decide (n * ((2 ^ 1074 : Nat) : Int) < dblScaled y)

/-- The integer cell 5. -/
def fiveCell : VARIANT := ⟨VT_I4, 5, some [53]⟩
/-- The float cell 1.0. -/
def oneFloatCell : VARIANT := ⟨VT_R8, 0x3FF0000000000000, some [49]⟩
/-- The float cell 0.0. -/
def zeroFloatCell : VARIANT := ⟨VT_R8, 0, some [48]⟩
/-- The integer cell -1 (low four bytes 0xFFFFFFFF, the rest of the union zero). -/
def minusOneCell : VARIANT := ⟨VT_I4, 0xFFFFFFFF, some [45, 49]⟩
/-- The integer cell 0. -/
def zeroIntCell : VARIANT := ⟨VT_I4, 0, some [48]⟩

/-- The float cell -2.0 with its text "-2". -/
def negTwoCell : VARIANT := ⟨VT_R8, 0xC000000000000000, some [45, 50]⟩

/-- A string cell "-15"; its union holds the string pointer. -/
def minusFifteenTextCell : VARIANT := ⟨VT_BSTR, 0x000001F4A2B3C510, some [45, 49, 53]⟩

/-- A 3 x 1 grid (lower bounds 1, 1) whose only column holds -2.0, -1.0 and the string
"-15", top to bottom. -/
def ascendingMixedGrid : SAFEARRAY :=
  sampleGrid 1 1 1 [[negTwoCell], [negOneCell], [minusFifteenTextCell]]

/-- A 1 x 1 grid (lower bounds 1, 1) holding one error cell. -/
def oneErrorGrid : SAFEARRAY := sampleGrid 1 1 1 [[errorCell]]
/-- A grid with no rows and one column (lower bounds 1, 1; upper row bound 0). -/
def noRowGrid : SAFEARRAY := sampleGrid 1 1 1 []

/-- The magnitude of a binary64 value scaled by 2^1074, from the 63 magnitude bits. -/
def magOf (m : Nat) : Nat :=
  if m / 4503599627370496 = 0 then m % 4503599627370496
  else (4503599627370496 + m % 4503599627370496) * 2 ^ (m / 4503599627370496 - 1)

/-- A 3 x 1 integer grid (lower bounds 1, 1) holding 3, 1, 2 top to bottom, with the
write to its first row failing. -/
def threeIntWriteFailGrid : SAFEARRAY :=
  { sampleGrid 1 1 1 [[intCell 3 [51]], [intCell 1 [49]], [intCell 2 [50]]] with
    putOk := fun r c => !(decide (r = 1) && decide (c = 1)) }

/-- A 1 x 1 integer grid (lower bounds 1, 1) holding 7, with the read of its cell failing. -/
def oneCellReadFailGrid : SAFEARRAY :=
  { sampleGrid 1 1 1 [[intCell 7 [55]]] with getOk := fun _ _ => false }

/-- The transient rows the routine builds from a grid with the given bounds: the variable
`rowVector` after the extraction loops. -/
def rowVectorOf (sa : SAFEARRAY) (lr ur lc uc : Int) : List RowData :=
  extractRows sa lr lc (uc - lc + 1).toNat (List.range (ur - lr + 1).toNat) VARIANT.empty

/-! ## Lemmas about `std::sort` -/

section SortLemmas
variable {α : Type} (pred : α → α → Option Bool)

theorem insertScan_perm (val : α) : ∀ (l r : List α), insertScan pred val l = some r →
    r.Perm (val :: l) := by
  intro l
  induction l with
  | nil => intro r h; simp [insertScan] at h; subst h; exact List.Perm.refl _
  | cons prev rest ih =>
    intro r h
    unfold insertScan at h
    split at h
    · exact absurd h (by simp)
    · simp only [Option.map_eq_some'] at h
      obtain ⟨r1, hr1, rfl⟩ := h
      exact ((ih r1 hr1).cons prev).trans (List.Perm.swap val prev rest)
    · simp at h; subst h; exact List.Perm.refl _

theorem insertStep_perm (acc : List α) (val : α) (r : List α)
    (h : insertStep pred acc val = some r) : r.Perm (val :: acc) := by
  unfold insertStep at h
  split at h
  · rename_i hl
    simp at h
    simp [List.getLast?_eq_none_iff] at hl
    subst hl; subst h; exact List.Perm.refl _
  · split at h
    · exact absurd h (by simp)
    · simp at h; subst h
      exact List.perm_append_singleton val acc
    · exact insertScan_perm pred val acc r h

theorem insertionLoop_perm : ∀ (l acc r : List α), insertionLoop pred acc l = some r →
    r.Perm (acc ++ l) := by
  intro l
  induction l with
  | nil => intro acc r h; simp [insertionLoop] at h; subst h; simp
  | cons x xs ih =>
    intro acc r h
    unfold insertionLoop at h
    split at h
    · exact absurd h (by simp)
    · rename_i acc1 hstep
      have h1 := ih acc1 r h
      have h2 := insertStep_perm pred acc x acc1 hstep
      refine h1.trans ?_
      refine (List.Perm.append_right xs h2).trans ?_
      have hm : (acc ++ x :: xs).Perm (x :: (acc ++ xs)) := List.perm_middle
      simpa using hm.symm

theorem std_sort_perm (l r : List α) (h : std_sort pred l = some r) : r.Perm l := by
  simpa using insertionLoop_perm pred l [] r h


end SortLemmas

section SortOrder
variable {α : Type} (pred : α → α → Option Bool) (P : α → Prop)

theorem insertScan_isSome (htot : ∀ a b, P a → P b → ∃ t, pred a b = some t) (val : α)
    (hv : P val) : ∀ l : List α, (∀ x ∈ l, P x) → ∃ r, insertScan pred val l = some r := by
  intro l
  induction l with
  | nil => intro _; exact ⟨[val], rfl⟩
  | cons prev rest ih =>
    intro hl
    obtain ⟨t, ht⟩ := htot val prev hv (hl prev (List.mem_cons_self _ _))
    obtain ⟨r1, hr1⟩ := ih (fun x hx => hl x (List.mem_cons_of_mem _ hx))
    cases t with
    | true => exact ⟨prev :: r1, by simp [insertScan, ht, hr1]⟩
    | false => exact ⟨val :: prev :: rest, by simp [insertScan, ht]⟩

theorem insertScan_chain (hasym : ∀ a b, P a → P b → pred a b = some true → pred b a = some false)
    (val : α) (hv : P val) : ∀ (l r : List α), (∀ x ∈ l, P x) →
    List.Chain' (NotLess pred) l → insertScan pred val l = some r →
    List.Chain' (NotLess pred) r ∧ (r.head? = some val ∨ (r.head? = l.head? ∧ l ≠ [])) := by
  intro l
  induction l with
  | nil =>
    intro r _ _ h
    simp [insertScan] at h; subst h
    exact ⟨List.chain'_singleton _, Or.inl rfl⟩
  | cons prev rest ih =>
    intro r hl hc h
    unfold insertScan at h
    split at h
    · exact absurd h (by simp)
    · rename_i hlt
      simp only [Option.map_eq_some'] at h
      obtain ⟨r1, hr1, rfl⟩ := h
      have hPprev : P prev := hl prev (List.mem_cons_self _ _)
      obtain ⟨hc1, hh⟩ := ih r1 (fun x hx => hl x (List.mem_cons_of_mem _ hx))
        (List.Chain'.tail hc) hr1
      refine ⟨?_, Or.inr ⟨rfl, by simp⟩⟩
      rw [List.chain'_cons']
      refine ⟨?_, hc1⟩
      intro y hy
      rcases hh with hh | ⟨hh, _⟩
      · rw [hh] at hy
        simp at hy; subst hy
        exact hasym val prev hv hPprev hlt
      · rw [hh] at hy
        exact (List.chain'_cons'.mp hc).1 y hy
    · rename_i hlt
      simp at h; subst h
      refine ⟨?_, Or.inl rfl⟩
      rw [List.chain'_cons']
      exact ⟨fun y hy => by simp at hy; subst hy; exact hlt, hc⟩

theorem insertStep_isSome (htot : ∀ a b, P a → P b → ∃ t, pred a b = some t) (acc : List α)
    (val : α) (hv : P val) (hacc : ∀ x ∈ acc, P x) : ∃ r, insertStep pred acc val = some r := by
  unfold insertStep
  split
  · exact ⟨_, rfl⟩
  · rename_i first hfirst
    have hmem : first ∈ acc := List.mem_of_getLast?_eq_some hfirst
    obtain ⟨t, ht⟩ := htot val first hv (hacc first hmem)
    cases t with
    | true => exact ⟨acc ++ [val], by simp [ht]⟩
    | false =>
      obtain ⟨r, hr⟩ := insertScan_isSome pred P htot val hv acc hacc
      exact ⟨r, by simp [ht, hr]⟩

theorem insertStep_chain (hasym : ∀ a b, P a → P b → pred a b = some true → pred b a = some false)
    (acc : List α) (val : α) (r : List α) (hv : P val) (hacc : ∀ x ∈ acc, P x)
    (hc : List.Chain' (NotLess pred) acc) (h : insertStep pred acc val = some r) :
    List.Chain' (NotLess pred) r := by
  unfold insertStep at h
  split at h
  · simp at h; subst h; exact List.chain'_singleton _
  · rename_i first hfirst
    split at h
    · exact absurd h (by simp)
    · rename_i hlt
      simp at h; subst h
      have hmem : first ∈ acc := List.mem_of_getLast?_eq_some hfirst
      refine List.Chain'.append hc (List.chain'_singleton _) ?_
      intro x hx y hy
      simp at hy; subst hy
      rw [hfirst] at hx
      simp at hx; subst hx
      exact hasym _ _ hv (hacc _ hmem) hlt
    · exact (insertScan_chain pred P hasym val hv acc r hacc hc h).1

theorem insertionLoop_isSome (htot : ∀ a b, P a → P b → ∃ t, pred a b = some t) :
    ∀ (l acc : List α), (∀ x ∈ l, P x) → (∀ x ∈ acc, P x) →
    ∃ r, insertionLoop pred acc l = some r := by
  intro l
  induction l with
  | nil => intro acc _ _; exact ⟨_, rfl⟩
  | cons x xs ih =>
    intro acc hl hacc
    obtain ⟨acc1, h1⟩ := insertStep_isSome pred P htot acc x (hl x (List.mem_cons_self _ _)) hacc
    have hP1 : ∀ y ∈ acc1, P y := by
      intro y hy
      have := (insertStep_perm pred acc x acc1 h1).mem_iff.mp hy
      rcases List.mem_cons.mp this with rfl | hm
      · exact hl _ (List.mem_cons_self _ _)
      · exact hacc y hm
    obtain ⟨r, hr⟩ := ih acc1 (fun y hy => hl y (List.mem_cons_of_mem _ hy)) hP1
    exact ⟨r, by simp [insertionLoop, h1, hr]⟩

theorem insertionLoop_chain
    (hasym : ∀ a b, P a → P b → pred a b = some true → pred b a = some false) :
    ∀ (l acc r : List α), (∀ x ∈ l, P x) → (∀ x ∈ acc, P x) →
    List.Chain' (NotLess pred) acc → insertionLoop pred acc l = some r →
    List.Chain' (fun a b => pred b a = some false) r := by
  intro l
  induction l with
  | nil =>
    intro acc r _ _ hc h
    simp [insertionLoop] at h; subst h
    rw [List.chain'_reverse]
    exact hc
  | cons x xs ih =>
    intro acc r hl hacc hc h
    unfold insertionLoop at h
    split at h
    · exact absurd h (by simp)
    · rename_i acc1 h1
      have hP1 : ∀ y ∈ acc1, P y := by
        intro y hy
        have := (insertStep_perm pred acc x acc1 h1).mem_iff.mp hy
        rcases List.mem_cons.mp this with rfl | hm
        · exact hl _ (List.mem_cons_self _ _)
        · exact hacc y hm
      exact ih acc1 r (fun y hy => hl y (List.mem_cons_of_mem _ hy)) hP1
        (insertStep_chain pred P hasym acc x acc1 (hl x (List.mem_cons_self _ _)) hacc hc h1) h

/-- On elements where the comparator never raises, `std::sort` returns. -/
theorem std_sort_isSome (htot : ∀ a b, P a → P b → ∃ t, pred a b = some t) (l : List α)
    (hl : ∀ x ∈ l, P x) : ∃ r, std_sort pred l = some r :=
  insertionLoop_isSome pred P htot l [] hl (by simp)

/-- On elements where the comparator is asymmetric, no element of the result is
less than its predecessor. -/
theorem std_sort_chain
    (hasym : ∀ a b, P a → P b → pred a b = some true → pred b a = some false)
    (l r : List α) (hl : ∀ x ∈ l, P x) (h : std_sort pred l = some r) :
    List.Chain' (fun a b => pred b a = some false) r :=
  insertionLoop_chain pred P hasym l [] r hl (by simp) List.chain'_nil h

end SortOrder

/-! ## Lemmas about extraction and write-back -/

theorem wrapLong_eq (n : Int) (h : InLong n) : wrapLong n = n := by
  unfold wrapLong; unfold InLong at h; omega


section Extract
variable (sa : SAFEARRAY) (lr lc : Int)

theorem extractCells_fst (i : Nat) : ∀ (js : List Nat) (val : VARIANT),
    (∀ j ∈ js, sa.getOk (wrapLong (i + lr)) (wrapLong (j + lc)) = true) →
    (extractCells sa lr lc i js val).1 =
      js.map (fun (j : Nat) => sa.elems (wrapLong (i + lr)) (wrapLong (j + lc))) := by
  intro js
  induction js with
  | nil => intro val _; rfl
  | cons j js ih =>
    intro val h
    have hj := h j (List.mem_cons_self _ _)
    simp only [extractCells, List.map_cons, SafeArrayGetElement, hj, if_true]
    rw [ih _ (fun k hk => h k (List.mem_cons_of_mem _ hk))]

theorem extractRows_eq (cols : Nat) : ∀ (is : List Nat) (val : VARIANT),
    (∀ i ∈ is, ∀ j ∈ List.range cols,
      sa.getOk (wrapLong (i + lr)) (wrapLong (j + lc)) = true) →
    extractRows sa lr lc cols is val =
      is.map (fun (i : Nat) => (⟨(List.range cols).map
        (fun (j : Nat) => sa.elems (wrapLong (i + lr)) (wrapLong (j + lc)))⟩ : RowData)) := by
  intro is
  induction is with
  | nil => intro val _; rfl
  | cons i is ih =>
    intro val h
    simp only [extractRows, List.map_cons]
    rw [extractCells_fst sa lr lc i _ _ (h i (List.mem_cons_self _ _)),
      ih _ (fun k hk => h k (List.mem_cons_of_mem _ hk))]

end Extract

section WriteBack
variable (lr lc : Int)

theorem put_frame (sa : SAFEARRAY) (r c : Int) (v : VARIANT) :
    (SafeArrayPutElement sa r c v).lBound1 = sa.lBound1 ∧
    (SafeArrayPutElement sa r c v).uBound1 = sa.uBound1 ∧
    (SafeArrayPutElement sa r c v).lBound2 = sa.lBound2 ∧
    (SafeArrayPutElement sa r c v).uBound2 = sa.uBound2 ∧
    (SafeArrayPutElement sa r c v).getOk = sa.getOk ∧
    (SafeArrayPutElement sa r c v).putOk = sa.putOk := by
  unfold SafeArrayPutElement
  split <;> simp

theorem writeCells_frame (i : Nat) (cells : List VARIANT) : ∀ (js : List Nat) (sa : SAFEARRAY),
    (writeCells lr lc i cells js sa).lBound1 = sa.lBound1 ∧
    (writeCells lr lc i cells js sa).uBound1 = sa.uBound1 ∧
    (writeCells lr lc i cells js sa).lBound2 = sa.lBound2 ∧
    (writeCells lr lc i cells js sa).uBound2 = sa.uBound2 ∧
    (writeCells lr lc i cells js sa).getOk = sa.getOk ∧
    (writeCells lr lc i cells js sa).putOk = sa.putOk := by
  intro js
  induction js with
  | nil => intro sa; simp [writeCells]
  | cons j js ih =>
    intro sa
    simp only [writeCells]
    obtain ⟨h1, h2, h3, h4, h5, h6⟩ := ih (SafeArrayPutElement sa (wrapLong (i + lr))
      (wrapLong (j + lc)) (cells.getD j VARIANT.empty))
    obtain ⟨g1, g2, g3, g4, g5, g6⟩ := put_frame sa (wrapLong (i + lr))
      (wrapLong (j + lc)) (cells.getD j VARIANT.empty)
    exact ⟨h1.trans g1, h2.trans g2, h3.trans g3, h4.trans g4, h5.trans g5, h6.trans g6⟩

theorem writeRows_frame (cols : Nat) (R : List RowData) : ∀ (is : List Nat) (sa : SAFEARRAY),
    (writeRows lr lc cols R is sa).lBound1 = sa.lBound1 ∧
    (writeRows lr lc cols R is sa).uBound1 = sa.uBound1 ∧
    (writeRows lr lc cols R is sa).lBound2 = sa.lBound2 ∧
    (writeRows lr lc cols R is sa).uBound2 = sa.uBound2 ∧
    (writeRows lr lc cols R is sa).getOk = sa.getOk ∧
    (writeRows lr lc cols R is sa).putOk = sa.putOk := by
  intro is
  induction is with
  | nil => intro sa; simp [writeRows]
  | cons i is ih =>
    intro sa
    simp only [writeRows]
    obtain ⟨h1, h2, h3, h4, h5, h6⟩ := ih (writeCells lr lc i (R.getD i ⟨[]⟩).cells
      (List.range cols) sa)
    obtain ⟨g1, g2, g3, g4, g5, g6⟩ := writeCells_frame lr lc i (R.getD i ⟨[]⟩).cells
      (List.range cols) sa
    exact ⟨h1.trans g1, h2.trans g2, h3.trans g3, h4.trans g4, h5.trans g5, h6.trans g6⟩

theorem put_elems (sa : SAFEARRAY) (r c : Int) (v : VARIANT) (r1 c1 : Int) :
    (SafeArrayPutElement sa r c v).elems r1 c1 =
      if sa.putOk r c = true ∧ r1 = r ∧ c1 = c then v else sa.elems r1 c1 := by
  unfold SafeArrayPutElement
  by_cases h : sa.putOk r c = true
  · simp [h]
  · simp [h]

theorem writeCells_other (i : Nat) (cells : List VARIANT) (r c : Int) :
    ∀ (js : List Nat) (sa : SAFEARRAY),
    (∀ j ∈ js, ¬ (r = wrapLong (i + lr) ∧ c = wrapLong (j + lc))) →
    (writeCells lr lc i cells js sa).elems r c = sa.elems r c := by
  intro js
  induction js with
  | nil => intro sa _; rfl
  | cons j js ih =>
    intro sa h
    simp only [writeCells]
    rw [ih _ (fun k hk => h k (List.mem_cons_of_mem _ hk)), put_elems]
    have := h j (List.mem_cons_self _ _)
    rw [if_neg]
    intro hh
    exact this ⟨hh.2.1, hh.2.2⟩

theorem writeCells_hit (i : Nat) (cells : List VARIANT) (j0 : Nat) :
    ∀ (js : List Nat) (sa : SAFEARRAY), js.Nodup → j0 ∈ js →
    (∀ j ∈ js, wrapLong (j + lc) = wrapLong (j0 + lc) → j = j0) →
    sa.putOk (wrapLong (i + lr)) (wrapLong (j0 + lc)) = true →
    (writeCells lr lc i cells js sa).elems (wrapLong (i + lr)) (wrapLong (j0 + lc)) =
      cells.getD j0 VARIANT.empty := by
  intro js
  induction js with
  | nil => intro sa _ h; exact absurd h (List.not_mem_nil _)
  | cons j js ih =>
    intro sa hnd hmem hinj hput
    simp only [writeCells]
    rw [List.nodup_cons] at hnd
    by_cases hj : j0 = j
    · subst hj
      rw [writeCells_other, put_elems]
      · simp [hput]
      · intro k hk hh
        have := hinj k (List.mem_cons_of_mem _ hk) hh.2.symm
        subst this
        exact hnd.1 hk
    · have hmem1 : j0 ∈ js := by
        rcases List.mem_cons.mp hmem with h | h
        · exact absurd h hj
        · exact h
      apply ih _ hnd.2 hmem1 (fun k hk => hinj k (List.mem_cons_of_mem _ hk))
      rw [(put_frame sa _ _ _).2.2.2.2.2]
      exact hput

theorem writeRows_other (cols : Nat) (R : List RowData) (r c : Int) :
    ∀ (is : List Nat) (sa : SAFEARRAY),
    (∀ i ∈ is, ∀ j ∈ List.range cols, ¬ (r = wrapLong (i + lr) ∧ c = wrapLong (j + lc))) →
    (writeRows lr lc cols R is sa).elems r c = sa.elems r c := by
  intro is
  induction is with
  | nil => intro sa _; rfl
  | cons i is ih =>
    intro sa h
    simp only [writeRows]
    rw [ih _ (fun k hk => h k (List.mem_cons_of_mem _ hk)),
      writeCells_other lr lc i _ r c _ sa (h i (List.mem_cons_self _ _))]

theorem writeRows_hit (cols : Nat) (R : List RowData) (i0 j0 : Nat) (hj0 : j0 < cols)
    (hinjc : ∀ j ∈ List.range cols, wrapLong (j + lc) = wrapLong (j0 + lc) → j = j0) :
    ∀ (is : List Nat) (sa : SAFEARRAY), is.Nodup → i0 ∈ is →
    (∀ i ∈ is, wrapLong (i + lr) = wrapLong (i0 + lr) → i = i0) →
    sa.putOk (wrapLong (i0 + lr)) (wrapLong (j0 + lc)) = true →
    (writeRows lr lc cols R is sa).elems (wrapLong (i0 + lr)) (wrapLong (j0 + lc)) =
      (R.getD i0 ⟨[]⟩).cells.getD j0 VARIANT.empty := by
  intro is
  induction is with
  | nil => intro sa _ h; exact absurd h (List.not_mem_nil _)
  | cons i is ih =>
    intro sa hnd hmem hinj hput
    simp only [writeRows]
    rw [List.nodup_cons] at hnd
    by_cases hi : i0 = i
    · subst hi
      rw [writeRows_other]
      · exact writeCells_hit lr lc i0 _ j0 _ sa (List.nodup_range cols)
          (List.mem_range.mpr hj0) hinjc hput
      · intro k hk j _ hh
        have := hinj k (List.mem_cons_of_mem _ hk) hh.1.symm
        subst this
        exact hnd.1 hk
    · have hmem1 : i0 ∈ is := by
        rcases List.mem_cons.mp hmem with h | h
        · exact absurd h hi
        · exact h
      apply ih _ hnd.2 hmem1 (fun k hk => hinj k (List.mem_cons_of_mem _ hk))
      rw [(writeCells_frame lr lc i _ _ sa).2.2.2.2.2]
      exact hput

end WriteBack

theorem map_getD_range {β : Type} (l : List β) (d : β) :
    (List.range l.length).map (fun j => l.getD j d) = l := by
  apply List.ext_getElem
  · simp
  · intro n h1 h2
    simp [List.getD_eq_getElem?_getD, List.getElem?_eq_getElem h2]

theorem gridRows_eq (sa : SAFEARRAY) (lr ur lc uc : Int) (hb : GridBounds sa lr ur lc uc) :
    gridRows sa = (List.range (ur - lr + 1).toNat).map (fun (i : Nat) =>
      (⟨(List.range (uc - lc + 1).toNat).map (fun (j : Nat) =>
        sa.elems ((i : Int) + lr) ((j : Int) + lc))⟩ : RowData)) := by
  simp [gridRows, rowCount, columnCount, hb.lBound1, hb.uBound1, hb.lBound2, hb.uBound2]

theorem extractRows_valid (sa : SAFEARRAY) (lr ur lc uc : Int) (hv : ValidGrid sa lr ur lc uc)
    (val : VARIANT) :
    extractRows sa lr lc (uc - lc + 1).toNat (List.range (ur - lr + 1).toNat) val =
      gridRows sa := by
  obtain ⟨h1, h2, h3, h4⟩ := hv.inLong
  have hr := hv.rows
  have hc := hv.cols
  unfold InLong at h1 h2 h3 h4
  have wi : ∀ i ∈ List.range (ur - lr + 1).toNat, wrapLong ((i : Int) + lr) = (i : Int) + lr := by
    intro i hi
    rw [List.mem_range] at hi
    apply wrapLong_eq; unfold InLong; omega
  have wj : ∀ j ∈ List.range (uc - lc + 1).toNat, wrapLong ((j : Int) + lc) = (j : Int) + lc := by
    intro j hj
    rw [List.mem_range] at hj
    apply wrapLong_eq; unfold InLong; omega
  rw [extractRows_eq, gridRows_eq sa lr ur lc uc hv.toGridBounds]
  · apply List.map_congr_left
    intro i hi
    congr 1
    apply List.map_congr_left
    intro j hj
    rw [wi i hi, wj j hj]
  · intro i hi j hj
    rw [wi i hi, wj j hj]
    rw [List.mem_range] at hi hj
    exact (hv.access _ _ (by omega) (by omega) (by omega) (by omega)).1

theorem writeRows_valid (sa : SAFEARRAY) (lr ur lc uc : Int) (hv : ValidGrid sa lr ur lc uc)
    (R : List RowData) (hlen : R.length = (ur - lr + 1).toNat)
    (hrow : ∀ a ∈ R, a.cells.length = (uc - lc + 1).toNat) :
    gridRows (writeRows lr lc (uc - lc + 1).toNat R (List.range (ur - lr + 1).toNat) sa) = R := by
  obtain ⟨h1, h2, h3, h4⟩ := hv.inLong
  have hr := hv.rows
  have hc := hv.cols
  unfold InLong at h1 h2 h3 h4
  have wi : ∀ i : Nat, i < (ur - lr + 1).toNat → wrapLong ((i : Int) + lr) = (i : Int) + lr := by
    intro i hi
    apply wrapLong_eq; unfold InLong; omega
  have wj : ∀ j : Nat, j < (uc - lc + 1).toNat → wrapLong ((j : Int) + lc) = (j : Int) + lc := by
    intro j hj
    apply wrapLong_eq; unfold InLong; omega
  have hfr := writeRows_frame lr lc (uc - lc + 1).toNat R (List.range (ur - lr + 1).toNat) sa
  have hb : GridBounds (writeRows lr lc (uc - lc + 1).toNat R (List.range (ur - lr + 1).toNat) sa)
      lr ur lc uc :=
    ⟨⟨hfr.1.trans hv.lBound1, hfr.2.1.trans hv.uBound1, hfr.2.2.1.trans hv.lBound2,
      hfr.2.2.2.1.trans hv.uBound2⟩, hv.inLong, hv.rows, hv.cols⟩
  rw [gridRows_eq _ lr ur lc uc hb]
  apply List.ext_getElem
  · simp [hlen]
  · intro i hi1 hi2
    simp only [List.length_map, List.length_range] at hi1
    simp only [List.getElem_map, List.getElem_range]
    have hcell : (R[i]).cells.length = (uc - lc + 1).toNat := hrow _ (List.getElem_mem hi2)
    have hRi : R.getD i ⟨[]⟩ = R[i] := by
      simp [List.getD_eq_getElem?_getD, List.getElem?_eq_getElem hi2]
    have : (List.range (uc - lc + 1).toNat).map (fun (j : Nat) =>
        (writeRows lr lc (uc - lc + 1).toNat R (List.range (ur - lr + 1).toNat) sa).elems
          ((i : Int) + lr) ((j : Int) + lc)) = (R[i]).cells := by
      refine Eq.trans ?_ (show (List.range (uc - lc + 1).toNat).map
        (fun (j : Nat) => (R[i]).cells.getD j VARIANT.empty) = (R[i]).cells by
          rw [← hcell]; exact map_getD_range _ _)
      apply List.map_congr_left
      intro j hj
      rw [List.mem_range] at hj
      have := writeRows_hit lr lc (uc - lc + 1).toNat R i j hj
        (fun k hk hh => by
          rw [List.mem_range] at hk
          rw [wj k hk, wj j hj] at hh; omega)
        (List.range (ur - lr + 1).toNat) sa (List.nodup_range _) (List.mem_range.mpr hi1)
        (fun k hk hh => by
          rw [List.mem_range] at hk
          rw [wi k hk, wi i hi1] at hh; omega)
        (by
          rw [wi i hi1, wj j hj]
          exact (hv.access _ _ (by omega) (by omega) (by omega) (by omega)).2)
      rw [wi i hi1, wj j hj, hRi] at this
      exact this
    rw [this]


/-! ## The routine on a valid grid -/

theorem gridOf_withArray (tv : TableVariant) (sa : SAFEARRAY) : gridOf (withArray tv sa) = sa := by
  unfold gridOf varArray withArray
  by_cases h : isByRef tv.vt = true <;> simp [h]

theorem withArray_gridOf (tv : TableVariant) : withArray tv (gridOf tv) = tv := by
  unfold gridOf varArray withArray
  by_cases h : isByRef tv.vt = true <;> simp [h]

theorem SortTableByColumn_accepted (tv : TableVariant) (colIndex : Int)
    (hacc : acceptsContainer (varArray tv).vt = true) :
    SortTableByColumn (some tv) (some colIndex) =
      ((sortArray (gridOf tv) colIndex).1, some (withArray tv (sortArray (gridOf tv) colIndex).2)) := by
  simp [SortTableByColumn, hacc, gridOf]

theorem sortArray_valid (sa : SAFEARRAY) (colIndex lr ur lc uc : Int)
    (hv : ValidGrid sa lr ur lc uc) (hcol : 1 ≤ colIndex ∧ colIndex ≤ uc - lc + 1) :
    sortArray sa colIndex =
      match std_sort (compareRows colIndex) (gridRows sa) with
      | none => (5, sa)
      | some sorted =>
        (0, writeRows lr lc (uc - lc + 1).toNat sorted (List.range (ur - lr + 1).toNat) sa) := by
  have hr := hv.rows
  have hc := hv.cols
  have e1 : wrapLong (ur - lr + 1) = ur - lr + 1 := wrapLong_eq _ (by unfold InLong; omega)
  have e2 : wrapLong (uc - lc + 1) = uc - lc + 1 := wrapLong_eq _ (by unfold InLong; omega)
  unfold sortArray
  simp only [hv.lBound1, hv.uBound1, hv.lBound2, hv.uBound2, e1, e2]
  rw [if_neg (by omega), if_neg (by omega), extractRows_valid sa lr ur lc uc hv]

theorem gridRows_cells_length (sa : SAFEARRAY) (lr ur lc uc : Int)
    (hb : GridBounds sa lr ur lc uc) :
    (gridRows sa).length = (ur - lr + 1).toNat ∧
      ∀ a ∈ gridRows sa, a.cells.length = (uc - lc + 1).toNat := by
  rw [gridRows_eq sa lr ur lc uc hb]
  constructor
  · simp
  · intro a ha
    simp only [List.mem_map] at ha
    obtain ⟨i, _, rfl⟩ := ha
    simp

/-- On a valid grid and a valid column the routine either meets a raising comparison
(status 5, grid untouched) or stores the rows in the order found by `std::sort`. -/
theorem sortArray_cases (sa : SAFEARRAY) (colIndex lr ur lc uc : Int)
    (hv : ValidGrid sa lr ur lc uc) (hcol : 1 ≤ colIndex ∧ colIndex ≤ uc - lc + 1) :
    (std_sort (compareRows colIndex) (gridRows sa) = none ∧ sortArray sa colIndex = (5, sa)) ∨
    (∃ sorted, std_sort (compareRows colIndex) (gridRows sa) = some sorted ∧
      (sortArray sa colIndex).1 = 0 ∧ gridRows (sortArray sa colIndex).2 = sorted ∧
      GridBounds (sortArray sa colIndex).2 lr ur lc uc) := by
  rw [sortArray_valid sa colIndex lr ur lc uc hv hcol]
  cases hs : std_sort (compareRows colIndex) (gridRows sa) with
  | none => exact Or.inl ⟨rfl, rfl⟩
  | some sorted =>
    refine Or.inr ⟨sorted, rfl, rfl, ?_, ?_⟩
    · have hp := std_sort_perm _ _ _ hs
      obtain ⟨hl, hcs⟩ := gridRows_cells_length sa lr ur lc uc hv.toGridBounds
      exact writeRows_valid sa lr ur lc uc hv sorted (hp.length_eq.trans hl)
        (fun a ha => hcs a (hp.mem_iff.mp ha))
    · have hfr := writeRows_frame lr lc (uc - lc + 1).toNat sorted
        (List.range (ur - lr + 1).toNat) sa
      exact ⟨⟨hfr.1.trans hv.lBound1, hfr.2.1.trans hv.uBound1, hfr.2.2.1.trans hv.lBound2,
        hfr.2.2.2.1.trans hv.uBound2⟩, hv.inLong, hv.rows, hv.cols⟩

theorem targetColumn_eq (sa : SAFEARRAY) (colIndex lr ur lc uc : Int)
    (hb : GridBounds sa lr ur lc uc) (hcol : 1 ≤ colIndex ∧ colIndex ≤ uc - lc + 1) :
    targetColumn sa colIndex = (gridRows sa).map (keyCell colIndex) := by
  rw [gridRows_eq sa lr ur lc uc hb]
  simp only [targetColumn, rowCount, hb.lBound1, hb.uBound1, hb.lBound2, Option.getD_some,
    List.map_map]
  apply List.map_congr_left
  intro i _
  simp only [Function.comp, keyCell]
  have hlt : (colIndex - 1).toNat < (uc - lc + 1).toNat := by omega
  rw [List.getD_eq_getElem?_getD, List.getElem?_eq_getElem (by simpa using hlt)]
  simp only [List.getElem_map, List.getElem_range, Option.getD_some]
  congr 1
  omega

/-! ## Comparator facts -/

theorem compareRows_int (colIndex : Int) (a b : RowData)
    (ha : (keyCell colIndex a).vt = VT_I4) (hb : (keyCell colIndex b).vt = VT_I4) :
    compareRows colIndex a b =
      some (decide ((keyCell colIndex a).lVal < (keyCell colIndex b).lVal)) := by
  simp [compareRows, cellLess, ha, hb]

theorem cellLess_isSome (va vb : VARIANT) (ha : va.bstr ≠ none) (hb : vb.bstr ≠ none) :
    ∃ t, cellLess va vb = some t := by
  unfold cellLess
  split
  · exact ⟨_, rfl⟩
  · split
    · exact ⟨_, rfl⟩
    · cases h1 : va.bstr with
      | none => exact absurd h1 ha
      | some sa =>
        cases h2 : vb.bstr with
        | none => exact absurd h2 hb
        | some sb => exact ⟨_, rfl⟩

/-! ## Status codes of the array stage -/

theorem sortArray_none (sa : SAFEARRAY) (colIndex : Int)
    (h : sa.lBound1 = none ∨ sa.uBound1 = none ∨ sa.lBound2 = none ∨ sa.uBound2 = none) :
    sortArray sa colIndex = (3, sa) := by
  unfold sortArray
  cases h1 : sa.lBound1 <;> cases h2 : sa.uBound1 <;> cases h3 : sa.lBound2 <;>
    cases h4 : sa.uBound2 <;> simp_all

theorem sortArray_some (sa : SAFEARRAY) (colIndex lr ur lc uc : Int)
    (hb : Retrievable sa lr ur lc uc) :
    (sortArray sa colIndex = (7, sa) ∧ (colIndex < 1 ∨ colIndex > wrapLong (uc - lc + 1))) ∨
    (((sortArray sa colIndex).1 = 0 ∨ sortArray sa colIndex = (5, sa)) ∧
      ¬ (colIndex < 1 ∨ colIndex > wrapLong (uc - lc + 1))) := by
  unfold sortArray
  simp only [hb.lBound1, hb.uBound1, hb.lBound2, hb.uBound2]
  by_cases h7 : colIndex < 1 ∨ colIndex > wrapLong (uc - lc + 1)
  · rw [if_pos h7]; exact Or.inl ⟨rfl, h7⟩
  · rw [if_neg h7]
    refine Or.inr ⟨?_, h7⟩
    by_cases h5 : wrapLong (ur - lr + 1) < 0
    · rw [if_pos h5]; exact Or.inr rfl
    · rw [if_neg h5]
      cases std_sort (compareRows colIndex) (extractRows sa lr lc (wrapLong (uc - lc + 1)).toNat
        (List.range (wrapLong (ur - lr + 1)).toNat) VARIANT.empty) with
      | none => exact Or.inr rfl
      | some sorted => exact Or.inl rfl

theorem retrievable_or_none (sa : SAFEARRAY) :
    (∃ lr ur lc uc, Retrievable sa lr ur lc uc) ∨
    (sa.lBound1 = none ∨ sa.uBound1 = none ∨ sa.lBound2 = none ∨ sa.uBound2 = none) := by
  cases h1 : sa.lBound1 <;> cases h2 : sa.uBound1 <;> cases h3 : sa.lBound2 <;>
    cases h4 : sa.uBound2 <;> simp
  exact ⟨_, _, _, _, ⟨h1, h2, h3, h4⟩⟩

theorem sortArray_status (sa : SAFEARRAY) (colIndex : Int) :
    (sortArray sa colIndex).1 = 0 ∨ (sortArray sa colIndex).1 = 3 ∨
    (sortArray sa colIndex).1 = 5 ∨ (sortArray sa colIndex).1 = 7 := by
  rcases retrievable_or_none sa with ⟨lr, ur, lc, uc, hb⟩ | hn
  · rcases sortArray_some sa colIndex lr ur lc uc hb with ⟨h, _⟩ | ⟨h | h, _⟩
    · rw [h]; simp
    · exact Or.inl h
    · rw [h]; simp
  · rw [sortArray_none sa colIndex hn]; simp

theorem sortArray_three (sa : SAFEARRAY) (colIndex : Int) :
    ((sortArray sa colIndex).1 = 3 ↔
      (sa.lBound1 = none ∨ sa.uBound1 = none ∨ sa.lBound2 = none ∨ sa.uBound2 = none)) ∧
    ((sortArray sa colIndex).1 = 3 → (sortArray sa colIndex).2 = sa) := by
  rcases retrievable_or_none sa with ⟨lr, ur, lc, uc, hb⟩ | hn
  · have hne : ¬ (sa.lBound1 = none ∨ sa.uBound1 = none ∨ sa.lBound2 = none ∨
        sa.uBound2 = none) := by
      simp [hb.lBound1, hb.uBound1, hb.lBound2, hb.uBound2]
    have h3 : (sortArray sa colIndex).1 ≠ 3 := by
      rcases sortArray_some sa colIndex lr ur lc uc hb with ⟨h, _⟩ | ⟨h | h, _⟩
      · rw [h]; simp
      · rw [h]; simp
      · rw [h]; simp
    exact ⟨⟨fun h => absurd h h3, fun h => absurd h hne⟩, fun h => absurd h h3⟩
  · rw [sortArray_none sa colIndex hn]
    exact ⟨⟨fun _ => hn, fun _ => rfl⟩, fun _ => rfl⟩

theorem sortArray_seven (sa : SAFEARRAY) (colIndex lr ur lc uc : Int)
    (hb : Retrievable sa lr ur lc uc) (hc : InLong (uc - lc + 1)) :
    ((colIndex < 1 ∨ colIndex > uc - lc + 1) → sortArray sa colIndex = (7, sa)) ∧
    ((sortArray sa colIndex).1 = 7 → (colIndex < 1 ∨ colIndex > uc - lc + 1)) := by
  have e2 : wrapLong (uc - lc + 1) = uc - lc + 1 := wrapLong_eq _ hc
  rcases sortArray_some sa colIndex lr ur lc uc hb with ⟨h, h7⟩ | ⟨h | h, h7⟩
  · rw [e2] at h7
    exact ⟨fun _ => h, fun _ => h7⟩
  · rw [e2] at h7
    exact ⟨fun hh => absurd hh h7, fun hh => by rw [h] at hh; simp at hh⟩
  · rw [e2] at h7
    exact ⟨fun hh => absurd hh h7, fun hh => by rw [h] at hh; simp at hh⟩

/-! ## Claims -/

/-- C1 (evaluation at the failing input). On the 2 x 1 grid holding the float -1.0 above
the string "(none)", sorting by column 1 returns status 0 and leaves the string row above
the float row, although the comparator reports the float row as less than the string row.
The comparator reports each of the two rows as less than the other, so neither order of
the two rows is ordered by it. -/
theorem mixed_column_not_ordered :
    ValidGrid (gridOf (sampleTable mixedGrid)) 1 2 1 1 ∧
    (SortTableByColumn (some (sampleTable mixedGrid)) (some 1)).1 = 0 ∧
    rowsAfter (SortTableByColumn (some (sampleTable mixedGrid)) (some 1)) =
      [⟨[noneTextCell]⟩, ⟨[negOneCell]⟩] ∧
    orderedBy 1 (rowsAfter (SortTableByColumn (some (sampleTable mixedGrid)) (some 1))) = false ∧
    compareRows 1 ⟨[negOneCell]⟩ ⟨[noneTextCell]⟩ = some true ∧
    compareRows 1 ⟨[noneTextCell]⟩ ⟨[negOneCell]⟩ = some true ∧
    orderedBy 1 [⟨[negOneCell]⟩, ⟨[noneTextCell]⟩] = false :=
  ⟨⟨⟨⟨rfl, rfl, rfl, rfl⟩, by decide, by decide, by decide⟩, fun _ _ _ _ _ _ => ⟨rfl, rfl⟩⟩,
    by decide, by decide, by decide, by decide, by decide, by decide⟩

/-- On a valid grid, whose element accesses all succeed, and a target column in
[1, columnCount], the rows of the grid after the call are a permutation of the rows before
it: every row moves as a whole. -/
theorem rows_permuted (tv : TableVariant) (colIndex lr ur lc uc : Int)
    (hacc : acceptsContainer (varArray tv).vt = true)
    (hv : ValidGrid (gridOf tv) lr ur lc uc)
    (hcol : 1 ≤ colIndex ∧ colIndex ≤ uc - lc + 1) :
    ∃ tv1, (SortTableByColumn (some tv) (some colIndex)).2 = some tv1 ∧
      (gridRows (gridOf tv1)).Perm (gridRows (gridOf tv)) := by
  rw [SortTableByColumn_accepted tv colIndex hacc]
  refine ⟨_, rfl, ?_⟩
  rw [gridOf_withArray]
  rcases sortArray_cases (gridOf tv) colIndex lr ur lc uc hv hcol with ⟨_, h⟩ | ⟨sorted, hs, _, h, _⟩
  · rw [h]
  · rw [h]; exact std_sort_perm _ _ _ hs

/-- The rows of the 4 x 3 integer grid, sorted by its second column, are permuted. -/
theorem rows_permuted_witness :
    ∃ tv1, (SortTableByColumn (some (sampleTable intGrid)) (some 2)).2 = some tv1 ∧
      (gridRows (gridOf tv1)).Perm (gridRows (gridOf (sampleTable intGrid))) :=
  rows_permuted (sampleTable intGrid) 2 0 3 5 7 (by decide)
    ⟨⟨⟨rfl, rfl, rfl, rfl⟩, by decide, by decide, by decide⟩, fun _ _ _ _ _ _ => ⟨rfl, rfl⟩⟩
    (by decide)

/-- On a valid grid (any lower bounds, element accesses all succeeding) whose target column,
grid column lowerCol + targetColumn - 1, holds only 32-bit integers, the call returns status 0, the
target column afterwards is in ascending integer order top to bottom, and the rows
afterwards are a permutation of the rows before. -/
theorem integer_column_sorted (tv : TableVariant) (colIndex lr ur lc uc : Int)
    (hacc : acceptsContainer (varArray tv).vt = true)
    (hv : ValidGrid (gridOf tv) lr ur lc uc)
    (hcol : 1 ≤ colIndex ∧ colIndex ≤ uc - lc + 1)
    (hint : ∀ v ∈ targetColumn (gridOf tv) colIndex, v.vt = VT_I4) :
    (SortTableByColumn (some tv) (some colIndex)).1 = 0 ∧
    ∃ tv1, (SortTableByColumn (some tv) (some colIndex)).2 = some tv1 ∧
      List.Sorted (fun x y : Int => x ≤ y)
        ((targetColumn (gridOf tv1) colIndex).map VARIANT.lVal) ∧
      (gridRows (gridOf tv1)).Perm (gridRows (gridOf tv)) := by
  rw [SortTableByColumn_accepted tv colIndex hacc]
  have hP : ∀ a ∈ gridRows (gridOf tv), (keyCell colIndex a).vt = VT_I4 := by
    intro a ha
    apply hint
    rw [targetColumn_eq _ colIndex lr ur lc uc hv.toGridBounds hcol]
    exact List.mem_map_of_mem _ ha
  have htot : ∀ a b : RowData, (keyCell colIndex a).vt = VT_I4 →
      (keyCell colIndex b).vt = VT_I4 → ∃ t, compareRows colIndex a b = some t :=
    fun a b ha hb => ⟨_, compareRows_int colIndex a b ha hb⟩
  have hasym : ∀ a b : RowData, (keyCell colIndex a).vt = VT_I4 →
      (keyCell colIndex b).vt = VT_I4 → compareRows colIndex a b = some true →
      compareRows colIndex b a = some false := by
    intro a b ha hb h
    rw [compareRows_int colIndex a b ha hb] at h
    rw [compareRows_int colIndex b a hb ha]
    have h1 : (keyCell colIndex a).lVal < (keyCell colIndex b).lVal := by simpa using h
    have h2 : ¬ ((keyCell colIndex b).lVal < (keyCell colIndex a).lVal) := not_lt.mpr (le_of_lt h1)
    simp [h2]
  rcases sortArray_cases (gridOf tv) colIndex lr ur lc uc hv hcol with
    ⟨hnone, _⟩ | ⟨sorted, hs, hst, hrows, hb⟩
  · obtain ⟨r, hr⟩ := std_sort_isSome (compareRows colIndex)
      (fun a => (keyCell colIndex a).vt = VT_I4) htot _ hP
    rw [hnone] at hr
    exact absurd hr (by simp)
  · refine ⟨hst, _, rfl, ?_, ?_⟩
    · rw [gridOf_withArray, targetColumn_eq _ colIndex lr ur lc uc hb hcol, hrows]
      have hp := std_sort_perm _ _ _ hs
      have hch := std_sort_chain (compareRows colIndex)
        (fun a => (keyCell colIndex a).vt = VT_I4) hasym _ _ hP hs
      have hkey : ∀ a ∈ sorted, (keyCell colIndex a).vt = VT_I4 :=
        fun a ha => hP a (hp.mem_iff.mp ha)
      have hch2 : List.Chain' (fun a b : RowData =>
          (keyCell colIndex a).lVal ≤ (keyCell colIndex b).lVal) sorted := by
        refine (List.Chain'.iff_mem.mp hch).imp ?_
        intro a b hab
        have h3 := hab.2.2
        rw [compareRows_int colIndex b a (hkey b hab.2.1) (hkey a hab.1)] at h3
        have h4 : ¬ ((keyCell colIndex b).lVal < (keyCell colIndex a).lVal) := by
          simpa using h3
        exact not_lt.mp h4
      have hch3 : List.Chain' (fun x y : Int => x ≤ y)
          (sorted.map (fun a => (keyCell colIndex a).lVal)) :=
        (List.chain'_map _).mpr hch2
      rw [List.map_map]
      exact List.chain'_iff_pairwise.mp hch3
    · rw [gridOf_withArray, hrows]; exact std_sort_perm _ _ _ hs

/-- The 4 x 3 integer grid with lower bounds (0, 5) whose target column
reads 30, 10, 20, 10 comes out with target column 10, 10, 20, 30 and every row intact. -/
theorem integer_column_sorted_witness :
    ((SortTableByColumn (some (sampleTable intGrid)) (some 2)).1 = 0 ∧
    ∃ tv1, (SortTableByColumn (some (sampleTable intGrid)) (some 2)).2 = some tv1 ∧
      List.Sorted (fun x y : Int => x ≤ y) ((targetColumn (gridOf tv1) 2).map VARIANT.lVal) ∧
      (gridRows (gridOf tv1)).Perm (gridRows (gridOf (sampleTable intGrid)))) ∧
    (rowsAfter (SortTableByColumn (some (sampleTable intGrid)) (some 2))).map
      (fun r => r.cells.map VARIANT.lVal) =
        [[2, 10, 102], [4, 10, 104], [3, 20, 103], [1, 30, 101]] :=
  ⟨integer_column_sorted (sampleTable intGrid) 2 0 3 5 7 (by decide)
    ⟨⟨⟨rfl, rfl, rfl, rfl⟩, by decide, by decide, by decide⟩, fun _ _ _ _ _ _ => ⟨rfl, rfl⟩⟩
    (by decide) (by decide), by decide⟩

/-- C4 (counterexample). The 2 x 1 grid of two error cells is a valid grid, its container
is accepted and column 1 is in range, yet the status is 5, not 0: the comparator's
conversion of an error cell to text raises. -/
theorem error_cells_status_five :
    ValidGrid (gridOf (sampleTable errorGrid)) 1 2 1 1 ∧
    acceptsContainer (varArray (sampleTable errorGrid)).vt = true ∧
    ((1 : Int) ≤ 1 ∧ (1 : Int) ≤ 1 - 1 + 1) ∧
    (SortTableByColumn (some (sampleTable errorGrid)) (some 1)).1 = 5 ∧
    ¬ (SortTableByColumn (some (sampleTable errorGrid)) (some 1)).1 = 0 :=
  ⟨⟨⟨⟨rfl, rfl, rfl, rfl⟩, by decide, by decide, by decide⟩, fun _ _ _ _ _ _ => ⟨rfl, rfl⟩⟩,
    by decide, by decide, by decide, by decide⟩

/-- C5. When both references are present, the container is accepted and the four bounds
are retrievable (the column count upperCol - lowerCol + 1 being a `LONG`), a target column
below 1 or above the column count gives status 7 with the table exactly as it was, and
status 7 arises only for such a column. -/
theorem column_out_of_range (tv : TableVariant) (colIndex lr ur lc uc : Int)
    (hacc : acceptsContainer (varArray tv).vt = true)
    (hb : Retrievable (gridOf tv) lr ur lc uc) (hc : InLong (uc - lc + 1)) :
    ((colIndex < 1 ∨ colIndex > uc - lc + 1) →
      SortTableByColumn (some tv) (some colIndex) = (7, some tv)) ∧
    ((SortTableByColumn (some tv) (some colIndex)).1 = 7 →
      (colIndex < 1 ∨ colIndex > uc - lc + 1)) := by
  rw [SortTableByColumn_accepted tv colIndex hacc]
  obtain ⟨h1, h2⟩ := sortArray_seven (gridOf tv) colIndex lr ur lc uc hb hc
  refine ⟨fun h => ?_, h2⟩
  rw [h1 h, withArray_gridOf]

/-- Witness for C5: columns 0 and 4 of the 4 x 3 integer grid. -/
theorem column_out_of_range_witness :
    SortTableByColumn (some (sampleTable intGrid)) (some 0) = (7, some (sampleTable intGrid)) ∧
    SortTableByColumn (some (sampleTable intGrid)) (some 4) = (7, some (sampleTable intGrid)) :=
  ⟨(column_out_of_range (sampleTable intGrid) 0 0 3 5 7 (by decide) ⟨rfl, rfl, rfl, rfl⟩
      (by decide)).1 (Or.inl (by decide)),
   (column_out_of_range (sampleTable intGrid) 4 0 3 5 7 (by decide) ⟨rfl, rfl, rfl, rfl⟩
      (by decide)).1 (Or.inr (by decide))⟩

/-- C6 (evaluation at the failing input). A container tagged as an array of doubles
(`VT_ARRAY | VT_R8`), whose element type is not the generic tagged value, passes the
container test, and the call returns status 0 rather than 2; an array of strings
(`VT_ARRAY | VT_BSTR`) passes the test as well. -/
theorem doubles_array_accepted :
    doublesTable.vt = VT_ARRAY ||| VT_R8 ∧
    VT_R8 ≠ VT_VARIANT ∧
    acceptsContainer (varArray doublesTable).vt = true ∧
    (SortTableByColumn (some doublesTable) (some 1)).1 = 0 ∧
    acceptsContainer (VT_ARRAY ||| VT_BSTR) = true := by
  refine ⟨rfl, by decide, by decide, by decide, by decide⟩

/-- C7. The status is 1 exactly when the table reference or the column-index reference
is absent, and in that case nothing changes. -/
theorem absent_reference (tableVariant : Option TableVariant) (selectedColIndex : Option Int) :
    ((tableVariant = none ∨ selectedColIndex = none) →
      SortTableByColumn tableVariant selectedColIndex = (1, tableVariant)) ∧
    ((SortTableByColumn tableVariant selectedColIndex).1 = 1 →
      (tableVariant = none ∨ selectedColIndex = none)) := by
  cases tableVariant with
  | none => exact ⟨fun _ => rfl, fun _ => Or.inl rfl⟩
  | some tv =>
    cases selectedColIndex with
    | none => exact ⟨fun _ => rfl, fun _ => Or.inr rfl⟩
    | some colIndex =>
      refine ⟨fun h => by simp at h, fun h => ?_⟩
      exfalso
      by_cases hacc : acceptsContainer (varArray tv).vt = true
      · rw [SortTableByColumn_accepted tv colIndex hacc] at h
        rcases sortArray_status (gridOf tv) colIndex with h0 | h0 | h0 | h0 <;>
          · simp only at h h0
            rw [h0] at h
            simp at h
      · simp [SortTableByColumn, hacc] at h

/-- Witness for C7: an absent column-index reference with a present table. -/
theorem absent_reference_witness :
    SortTableByColumn (some (sampleTable intGrid)) none = (1, some (sampleTable intGrid)) :=
  (absent_reference (some (sampleTable intGrid)) none).1 (Or.inr rfl)

/-- C8. When both references are present and the container is accepted, the status is 3
exactly when one of the four bounds cannot be retrieved, whatever the target column, and
then the table is exactly as it was. -/
theorem bounds_unavailable (tv : TableVariant) (colIndex : Int)
    (hacc : acceptsContainer (varArray tv).vt = true) :
    ((SortTableByColumn (some tv) (some colIndex)).1 = 3 ↔
      ((gridOf tv).lBound1 = none ∨ (gridOf tv).uBound1 = none ∨
        (gridOf tv).lBound2 = none ∨ (gridOf tv).uBound2 = none)) ∧
    ((SortTableByColumn (some tv) (some colIndex)).1 = 3 →
      SortTableByColumn (some tv) (some colIndex) = (3, some tv)) := by
  rw [SortTableByColumn_accepted tv colIndex hacc]
  obtain ⟨h1, h2⟩ := sortArray_three (gridOf tv) colIndex
  refine ⟨h1, fun h => ?_⟩
  have h3 := h2 h
  simp only at h h3 ⊢
  rw [h3, h, withArray_gridOf]

/-- Witness for C8: a grid whose second upper bound is missing, with the out-of-range
column 99, gives status 3 and not 7. -/
theorem bounds_unavailable_witness :
    (SortTableByColumn (some (sampleTable noBoundGrid)) (some 99)).1 = 3 :=
  (bounds_unavailable (sampleTable noBoundGrid) 99 (by decide)).1.mpr
    (Or.inr (Or.inr (Or.inr rfl)))

/-- C9 (evaluation at the failing inputs). On the 2 x 1 grid holding 7 above 3, a failing
read of the second row, and likewise a failing write of the first row, goes unreported:
the status is 0, not 5, and the grid ends up holding 7 in both rows. -/
theorem failed_access_status_zero :
    readFailGrid.getOk 2 1 = false ∧
    (SortTableByColumn (some (sampleTable readFailGrid)) (some 1)).1 = 0 ∧
    rowsAfter (SortTableByColumn (some (sampleTable readFailGrid)) (some 1)) =
      [⟨[intCell 7 [55]]⟩, ⟨[intCell 7 [55]]⟩] ∧
    writeFailGrid.putOk 1 1 = false ∧
    (SortTableByColumn (some (sampleTable writeFailGrid)) (some 1)).1 = 0 ∧
    rowsAfter (SortTableByColumn (some (sampleTable writeFailGrid)) (some 1)) =
      [⟨[intCell 7 [55]]⟩, ⟨[intCell 7 [55]]⟩] := by
  refine ⟨by decide, by decide, by decide, by decide, by decide, by decide⟩

/-- C10. For every input the routine returns a status among 0, 1, 2, 3, 5 and 7; and on a
valid grid with a valid column a raising comparison inside the sort is contained: the
status is 5 and the table is exactly as it was. -/
theorem status_code_range (tableVariant : Option TableVariant)
    (selectedColIndex : Option Int) :
    ((SortTableByColumn tableVariant selectedColIndex).1 = 0 ∨
      (SortTableByColumn tableVariant selectedColIndex).1 = 1 ∨
      (SortTableByColumn tableVariant selectedColIndex).1 = 2 ∨
      (SortTableByColumn tableVariant selectedColIndex).1 = 3 ∨
      (SortTableByColumn tableVariant selectedColIndex).1 = 5 ∨
      (SortTableByColumn tableVariant selectedColIndex).1 = 7) ∧
    (∀ tv colIndex lr ur lc uc, tableVariant = some tv → selectedColIndex = some colIndex →
      acceptsContainer (varArray tv).vt = true → ValidGrid (gridOf tv) lr ur lc uc →
      (1 ≤ colIndex ∧ colIndex ≤ uc - lc + 1) →
      std_sort (compareRows colIndex) (gridRows (gridOf tv)) = none →
      SortTableByColumn tableVariant selectedColIndex = (5, some tv)) := by
  constructor
  · cases tableVariant with
    | none => exact Or.inr (Or.inl rfl)
    | some tv =>
      cases selectedColIndex with
      | none => exact Or.inr (Or.inl rfl)
      | some colIndex =>
        by_cases hacc : acceptsContainer (varArray tv).vt = true
        · rw [SortTableByColumn_accepted tv colIndex hacc]
          rcases sortArray_status (gridOf tv) colIndex with h0 | h0 | h0 | h0
          · exact Or.inl h0
          · exact Or.inr (Or.inr (Or.inr (Or.inl h0)))
          · exact Or.inr (Or.inr (Or.inr (Or.inr (Or.inl h0))))
          · exact Or.inr (Or.inr (Or.inr (Or.inr (Or.inr h0))))
        · exact Or.inr (Or.inr (Or.inl (by simp [SortTableByColumn, hacc])))
  · intro tv colIndex lr ur lc uc htv hci hacc hv hcol hnone
    subst htv; subst hci
    rw [SortTableByColumn_accepted tv colIndex hacc]
    rcases sortArray_cases (gridOf tv) colIndex lr ur lc uc hv hcol with
      ⟨_, h5⟩ | ⟨sorted, hs, _, _, _⟩
    · rw [h5, withArray_gridOf]
    · rw [hnone] at hs
      exact absurd hs (by simp)

/-- Witness for C10: the grid of two error cells, where the comparison raises. -/
theorem status_code_range_witness :
    SortTableByColumn (some (sampleTable errorGrid)) (some 1) =
      (5, some (sampleTable errorGrid)) :=
  (status_code_range (some (sampleTable errorGrid)) (some 1)).2 (sampleTable errorGrid) 1 1 2 1 1
    rfl rfl (by decide)
    ⟨⟨⟨rfl, rfl, rfl, rfl⟩, by decide, by decide, by decide⟩, fun _ _ _ _ _ _ => ⟨rfl, rfl⟩⟩
    (by decide) (by decide)

/-! ## Sorting an ordered range -/

theorem insertStep_keep {α : Type} (pred : α → α → Option Bool) (acc : List α) (val : α)
    (h : ∀ y ∈ acc, pred val y = some false) :
    insertStep pred acc val = some (val :: acc) := by
  unfold insertStep
  cases acc with
  | nil => rfl
  | cons prev rest =>
    cases hl : (prev :: rest).getLast? with
    | none => simp at hl
    | some first =>
      have hmem : first ∈ prev :: rest := List.mem_of_getLast?_eq_some hl
      simp only [h first hmem]
      simp only [insertScan, h prev (List.mem_cons_self _ _)]

theorem insertionLoop_keep {α : Type} (pred : α → α → Option Bool) :
    ∀ (l acc : List α), List.Pairwise (fun y x => pred x y = some false) (acc.reverse ++ l) →
    insertionLoop pred acc l = some (acc.reverse ++ l) := by
  intro l
  induction l with
  | nil => intro acc _; simp [insertionLoop]
  | cons x xs ih =>
    intro acc hp
    have hx : ∀ y ∈ acc, pred x y = some false := by
      intro y hy
      rw [List.pairwise_append] at hp
      exact hp.2.2 y (List.mem_reverse.mpr hy) x (List.mem_cons_self _ _)
    unfold insertionLoop
    rw [insertStep_keep pred acc x hx]
    have e : (x :: acc).reverse ++ xs = acc.reverse ++ x :: xs := by simp
    simp only
    rw [ih (x :: acc) (by rw [e]; exact hp), e]

/-- A range in which no element is less than an earlier one is returned as it is. -/
theorem std_sort_keep {α : Type} (pred : α → α → Option Bool) (l : List α)
    (hp : List.Pairwise (fun y x => pred x y = some false) l) : std_sort pred l = some l := by
  have := insertionLoop_keep pred l [] (by simpa using hp)
  simpa [std_sort] using this

/-- On a range of at most one element the predicate is never called. -/
theorem std_sort_short {α : Type} (pred : α → α → Option Bool) (l : List α)
    (h : l.length ≤ 1) : std_sort pred l = some l := by
  apply std_sort_keep
  match l, h with
  | [], _ => exact List.Pairwise.nil
  | [a], _ => exact List.pairwise_singleton _ a

/-! ## Write-back of the extracted rows -/

theorem SAFEARRAY.eq_of_fields (a b : SAFEARRAY) (h1 : a.lBound1 = b.lBound1)
    (h2 : a.uBound1 = b.uBound1) (h3 : a.lBound2 = b.lBound2) (h4 : a.uBound2 = b.uBound2)
    (h5 : a.elems = b.elems) (h6 : a.getOk = b.getOk) (h7 : a.putOk = b.putOk) : a = b := by
  cases a; cases b; simp_all

theorem gridRows_getD (sa : SAFEARRAY) (lr ur lc uc : Int) (hb : GridBounds sa lr ur lc uc)
    (i j : Nat) (hi : i < (ur - lr + 1).toNat) (hj : j < (uc - lc + 1).toNat) :
    ((gridRows sa).getD i ⟨[]⟩).cells.getD j VARIANT.empty =
      sa.elems ((i : Int) + lr) ((j : Int) + lc) := by
  have e1 : (gridRows sa).getD i ⟨[]⟩ = (⟨(List.range (uc - lc + 1).toNat).map
      (fun (j : Nat) => sa.elems ((i : Int) + lr) ((j : Int) + lc))⟩ : RowData) := by
    rw [gridRows_eq sa lr ur lc uc hb, List.getD_eq_getElem?_getD,
      List.getElem?_eq_getElem (by simpa using hi)]
    simp
  rw [e1]
  show ((List.range (uc - lc + 1).toNat).map
      (fun (j : Nat) => sa.elems ((i : Int) + lr) ((j : Int) + lc))).getD j VARIANT.empty = _
  rw [List.getD_eq_getElem?_getD, List.getElem?_eq_getElem (by simpa using hj)]
  simp

/-- Writing rows back touches only positions inside the bounds. -/
theorem writeRows_outside (sa : SAFEARRAY) (lr ur lc uc : Int) (hb : GridBounds sa lr ur lc uc)
    (R : List RowData) (r c : Int) (hout : ¬ (lr ≤ r ∧ r ≤ ur ∧ lc ≤ c ∧ c ≤ uc)) :
    (writeRows lr lc (uc - lc + 1).toNat R (List.range (ur - lr + 1).toNat) sa).elems r c =
      sa.elems r c := by
  obtain ⟨h1, h2, h3, h4⟩ := hb.inLong
  have hr := hb.rows
  have hc := hb.cols
  unfold InLong at h1 h2 h3 h4
  apply writeRows_other
  intro i hi j hj hh
  rw [List.mem_range] at hi hj
  have wi : wrapLong ((i : Int) + lr) = (i : Int) + lr := by
    apply wrapLong_eq; unfold InLong; omega
  have wj : wrapLong ((j : Int) + lc) = (j : Int) + lc := by
    apply wrapLong_eq; unfold InLong; omega
  rw [wi, wj] at hh
  apply hout
  omega

/-- Writing back the rows that were extracted leaves the grid as it was. -/
theorem writeRows_gridRows (sa : SAFEARRAY) (lr ur lc uc : Int) (hv : ValidGrid sa lr ur lc uc) :
    writeRows lr lc (uc - lc + 1).toNat (gridRows sa) (List.range (ur - lr + 1).toNat) sa = sa := by
  obtain ⟨h1, h2, h3, h4⟩ := hv.inLong
  have hr := hv.rows
  have hc := hv.cols
  unfold InLong at h1 h2 h3 h4
  have hfr := writeRows_frame lr lc (uc - lc + 1).toNat (gridRows sa)
    (List.range (ur - lr + 1).toNat) sa
  refine SAFEARRAY.eq_of_fields _ _ hfr.1 hfr.2.1 hfr.2.2.1 hfr.2.2.2.1 ?_ hfr.2.2.2.2.1
    hfr.2.2.2.2.2
  funext r c
  by_cases hin : lr ≤ r ∧ r ≤ ur ∧ lc ≤ c ∧ c ≤ uc
  · have hi : (r - lr).toNat < (ur - lr + 1).toNat := by omega
    have hj : (c - lc).toNat < (uc - lc + 1).toNat := by omega
    have er : (((r - lr).toNat : Nat) : Int) + lr = r := by omega
    have ec : (((c - lc).toNat : Nat) : Int) + lc = c := by omega
    have wi : ∀ i : Nat, i < (ur - lr + 1).toNat → wrapLong ((i : Int) + lr) = (i : Int) + lr := by
      intro i hi
      apply wrapLong_eq; unfold InLong; omega
    have wj : ∀ j : Nat, j < (uc - lc + 1).toNat → wrapLong ((j : Int) + lc) = (j : Int) + lc := by
      intro j hj
      apply wrapLong_eq; unfold InLong; omega
    have := writeRows_hit lr lc (uc - lc + 1).toNat (gridRows sa) (r - lr).toNat (c - lc).toNat hj
      (fun k hk hh => by
        rw [List.mem_range] at hk
        rw [wj k hk, wj _ hj] at hh; omega)
      (List.range (ur - lr + 1).toNat) sa (List.nodup_range _) (List.mem_range.mpr hi)
      (fun k hk hh => by
        rw [List.mem_range] at hk
        rw [wi k hk, wi _ hi] at hh; omega)
      (by
        rw [wi _ hi, wj _ hj, er, ec]
        exact (hv.access _ _ hin.1 hin.2.1 hin.2.2.1 hin.2.2.2).2)
    rw [wi _ hi, wj _ hj, gridRows_getD sa lr ur lc uc hv.toGridBounds _ _ hi hj, er, ec] at this
    exact this
  · exact writeRows_outside sa lr ur lc uc hv.toGridBounds _ r c hin

/-- On a valid grid whose rows are such that no row is less than an earlier one, the
array stage returns status 0 and the grid as it was. -/
theorem sortArray_keep (sa : SAFEARRAY) (colIndex lr ur lc uc : Int)
    (hv : ValidGrid sa lr ur lc uc) (hcol : 1 ≤ colIndex ∧ colIndex ≤ uc - lc + 1)
    (hp : List.Pairwise (fun y x => compareRows colIndex x y = some false) (gridRows sa)) :
    sortArray sa colIndex = (0, sa) := by
  rw [sortArray_valid sa colIndex lr ur lc uc hv hcol, std_sort_keep _ _ hp]
  simp only
  rw [writeRows_gridRows sa lr ur lc uc hv]

/-! ## The grid after the array stage -/

theorem sortArray_snd (sa : SAFEARRAY) (colIndex lr ur lc uc : Int)
    (hb : Retrievable sa lr ur lc uc) :
    (sortArray sa colIndex).2 = sa ∨
    ∃ sorted, (sortArray sa colIndex).2 =
      writeRows lr lc (wrapLong (uc - lc + 1)).toNat sorted
        (List.range (wrapLong (ur - lr + 1)).toNat) sa := by
  unfold sortArray
  simp only [hb.lBound1, hb.uBound1, hb.lBound2, hb.uBound2]
  by_cases h7 : colIndex < 1 ∨ colIndex > wrapLong (uc - lc + 1)
  · rw [if_pos h7]; exact Or.inl rfl
  · rw [if_neg h7]
    by_cases h5 : wrapLong (ur - lr + 1) < 0
    · rw [if_pos h5]; exact Or.inl rfl
    · rw [if_neg h5]
      cases std_sort (compareRows colIndex) (extractRows sa lr lc (wrapLong (uc - lc + 1)).toNat
        (List.range (wrapLong (ur - lr + 1)).toNat) VARIANT.empty) with
      | none => exact Or.inl rfl
      | some sorted => exact Or.inr ⟨sorted, rfl⟩

/-- The array stage changes neither what the bound queries report nor which element
accesses succeed. -/
theorem sortArray_frame (sa : SAFEARRAY) (colIndex : Int) :
    (sortArray sa colIndex).2.lBound1 = sa.lBound1 ∧
    (sortArray sa colIndex).2.uBound1 = sa.uBound1 ∧
    (sortArray sa colIndex).2.lBound2 = sa.lBound2 ∧
    (sortArray sa colIndex).2.uBound2 = sa.uBound2 ∧
    (sortArray sa colIndex).2.getOk = sa.getOk ∧
    (sortArray sa colIndex).2.putOk = sa.putOk := by
  rcases retrievable_or_none sa with ⟨lr, ur, lc, uc, hb⟩ | hn
  · rcases sortArray_snd sa colIndex lr ur lc uc hb with h | ⟨sorted, h⟩
    · rw [h]; exact ⟨rfl, rfl, rfl, rfl, rfl, rfl⟩
    · rw [h]; exact writeRows_frame _ _ _ _ _ _
  · rw [sortArray_none sa colIndex hn]; exact ⟨rfl, rfl, rfl, rfl, rfl, rfl⟩

theorem gridShape_eq (a b : SAFEARRAY) (h1 : a.lBound1 = b.lBound1)
    (h2 : a.uBound1 = b.uBound1) (h3 : a.lBound2 = b.lBound2) (h4 : a.uBound2 = b.uBound2) :
    gridShape a = gridShape b := by
  simp [gridShape, rowCount, columnCount, h1, h2, h3, h4]

/-- With consistent bounds the array stage leaves every element outside the bounds alone. -/
theorem sortArray_outside (sa : SAFEARRAY) (colIndex lr ur lc uc : Int)
    (hb : GridBounds sa lr ur lc uc) (r c : Int)
    (hout : ¬ (lr ≤ r ∧ r ≤ ur ∧ lc ≤ c ∧ c ≤ uc)) :
    (sortArray sa colIndex).2.elems r c = sa.elems r c := by
  have hr := hb.rows
  have hc := hb.cols
  have e1 : wrapLong (ur - lr + 1) = ur - lr + 1 := wrapLong_eq _ (by unfold InLong; omega)
  have e2 : wrapLong (uc - lc + 1) = uc - lc + 1 := wrapLong_eq _ (by unfold InLong; omega)
  rcases sortArray_snd sa colIndex lr ur lc uc hb.toRetrievable with h | ⟨sorted, h⟩
  · rw [h]
  · rw [h, e1, e2]
    exact writeRows_outside sa lr ur lc uc hb sorted r c hout

/-- The table argument after any call: present exactly when it was, with the grid that
the array stage left (or the grid as it was). -/
theorem SortTableByColumn_snd (tv : TableVariant) (selectedColIndex : Option Int) :
    ∃ tv1, (SortTableByColumn (some tv) selectedColIndex).2 = some tv1 ∧
      (gridOf tv1 = gridOf tv ∨ ∃ colIndex, gridOf tv1 = (sortArray (gridOf tv) colIndex).2) := by
  cases selectedColIndex with
  | none => exact ⟨tv, rfl, Or.inl rfl⟩
  | some colIndex =>
    by_cases hacc : acceptsContainer (varArray tv).vt = true
    · rw [SortTableByColumn_accepted tv colIndex hacc]
      exact ⟨_, rfl, Or.inr ⟨colIndex, gridOf_withArray _ _⟩⟩
    · exact ⟨tv, by simp [SortTableByColumn, hacc], Or.inl rfl⟩

/-- C12. For every input and every outcome the shape of the grid is unchanged: the table
reference is present afterwards exactly when it was, the four bounds and hence the row
and column counts are as before, and with consistent bounds no element outside the bounds
is changed. -/
theorem shape_unchanged (tableVariant : Option TableVariant) (selectedColIndex : Option Int) :
    (SortTableByColumn tableVariant selectedColIndex).2.map (fun t => gridShape (gridOf t)) =
      tableVariant.map (fun t => gridShape (gridOf t)) ∧
    (∀ tv lr ur lc uc, tableVariant = some tv → GridBounds (gridOf tv) lr ur lc uc →
      ∃ tv1, (SortTableByColumn tableVariant selectedColIndex).2 = some tv1 ∧
        ∀ r c, ¬ (lr ≤ r ∧ r ≤ ur ∧ lc ≤ c ∧ c ≤ uc) →
          (gridOf tv1).elems r c = (gridOf tv).elems r c) := by
  cases tableVariant with
  | none =>
    refine ⟨rfl, ?_⟩
    intro tv lr ur lc uc h
    exact absurd h (by simp)
  | some tv =>
    obtain ⟨tv1, h1, h2⟩ := SortTableByColumn_snd tv selectedColIndex
    constructor
    · rw [h1]
      simp only [Option.map_some']
      congr 1
      rcases h2 with h2 | ⟨colIndex, h2⟩
      · rw [h2]
      · rw [h2]
        obtain ⟨f1, f2, f3, f4, _, _⟩ := sortArray_frame (gridOf tv) colIndex
        exact gridShape_eq _ _ f1 f2 f3 f4
    · intro tv0 lr ur lc uc htv hb
      simp only [Option.some.injEq] at htv
      subst htv
      refine ⟨tv1, h1, ?_⟩
      intro r c hout
      rcases h2 with h2 | ⟨colIndex, h2⟩
      · rw [h2]
      · rw [h2]
        exact sortArray_outside (gridOf tv) colIndex lr ur lc uc hb r c hout

/-- Witness for C12: the 4 x 3 integer grid sorted by its second column keeps its shape
and the elements outside its bounds. -/
theorem shape_unchanged_witness :
    ∃ tv1, (SortTableByColumn (some (sampleTable intGrid)) (some 2)).2 = some tv1 ∧
      ∀ r c, ¬ ((0 : Int) ≤ r ∧ r ≤ 3 ∧ (5 : Int) ≤ c ∧ c ≤ 7) →
        (gridOf tv1).elems r c = (gridOf (sampleTable intGrid)).elems r c :=
  (shape_unchanged (some (sampleTable intGrid)) (some 2)).2 (sampleTable intGrid) 0 3 5 7 rfl
    ⟨⟨rfl, rfl, rfl, rfl⟩, by decide, by decide, by decide⟩

/-! ## The text comparison -/

theorem cellLess_text (a b : VARIANT)
    (ha : ¬ (a.vt = VT_R8 ∨ a.vt = VT_I4 ∨ a.vt = VT_DATE)) :
    cellLess a b =
      match a.bstr, b.bstr with
      | some sa, some sb => some (decide (wcscmp sa sb < 0))
      | _, _ => none := by
  have h1 : ¬ (a.vt = VT_I4 ∧ b.vt = VT_I4) := fun h => ha (Or.inr (Or.inl h.1))
  unfold cellLess
  rw [if_neg h1, if_neg ha]
  cases a.bstr <;> cases b.bstr <;> rfl

theorem cellLess_int (a b : VARIANT) (ha : a.vt = VT_I4) (hb : b.vt = VT_I4) :
    cellLess a b = some (decide (a.lVal < b.lVal)) := by
  simp [cellLess, ha, hb]

/-- C15. The comparator is not a strict weak ordering on all cells. The float -1.0 and the
string "(none)" are each reported less than the other (asymmetry fails); the float 0.0 is
reported less than the integer -1 and the integer -1 less than the integer 0, yet 0.0 is
not reported less than the integer 0 (transitivity fails). On integer cells it is a strict
weak ordering: irreflexive, asymmetric, transitive, with transitive incomparability. -/
theorem comparator_not_strict_weak :
    (cellLess negOneCell noneTextCell = some true ∧
      cellLess noneTextCell negOneCell = some true) ∧
    (cellLess zeroFloatCell minusOneCell = some true ∧
      cellLess minusOneCell zeroIntCell = some true ∧
      cellLess zeroFloatCell zeroIntCell = some false) ∧
    (∀ a b c : VARIANT, a.vt = VT_I4 → b.vt = VT_I4 → c.vt = VT_I4 →
      cellLess a a = some false ∧
      (cellLess a b = some true → cellLess b a = some false) ∧
      (cellLess a b = some true → cellLess b c = some true → cellLess a c = some true) ∧
      (cellLess a b = some false → cellLess b a = some false →
        cellLess b c = some false → cellLess c b = some false →
        cellLess a c = some false ∧ cellLess c a = some false)) := by
  refine ⟨⟨by decide, by decide⟩, ⟨by decide, by decide, by decide⟩, ?_⟩
  intro a b c ha hb hc
  rw [cellLess_int a a ha ha, cellLess_int a b ha hb, cellLess_int b a hb ha,
    cellLess_int b c hb hc, cellLess_int c b hc hb, cellLess_int a c ha hc,
    cellLess_int c a hc ha]
  simp only [Option.some.injEq, decide_eq_true_eq, decide_eq_false_iff_not]
  refine ⟨by omega, by omega, by omega, ?_⟩
  intro h1 h2 h3 h4
  constructor <;> omega

/-- Witness for C15 on the integer cells 0, 5 and -1. -/
theorem comparator_not_strict_weak_witness :
    cellLess zeroIntCell zeroIntCell = some false ∧
    (cellLess zeroIntCell fiveCell = some true → cellLess fiveCell zeroIntCell = some false) :=
  ⟨(comparator_not_strict_weak.2.2 zeroIntCell fiveCell minusOneCell rfl rfl rfl).1,
   (comparator_not_strict_weak.2.2 zeroIntCell fiveCell minusOneCell rfl rfl rfl).2.1⟩

/-- On a valid grid, whose element accesses all succeed, with no row or exactly one row and a target column in
[1, columnCount], the call returns status 0 and the table is exactly as it was, whatever
the cells hold: the sort returns such a range without calling its predicate, so it returns
it for every predicate, even one that always raises. -/
theorem short_grid_unchanged (tv : TableVariant) (colIndex lr ur lc uc : Int)
    (hacc : acceptsContainer (varArray tv).vt = true)
    (hv : ValidGrid (gridOf tv) lr ur lc uc)
    (hcol : 1 ≤ colIndex ∧ colIndex ≤ uc - lc + 1)
    (hrows : ur - lr + 1 ≤ 1) :
    SortTableByColumn (some tv) (some colIndex) = (0, some tv) ∧
    ∀ pred : RowData → RowData → Option Bool,
      std_sort pred (gridRows (gridOf tv)) = some (gridRows (gridOf tv)) := by
  have hlen : (gridRows (gridOf tv)).length ≤ 1 := by
    rw [(gridRows_cells_length (gridOf tv) lr ur lc uc hv.toGridBounds).1]
    omega
  have hshort : ∀ pred : RowData → RowData → Option Bool,
      std_sort pred (gridRows (gridOf tv)) = some (gridRows (gridOf tv)) :=
    fun pred => std_sort_short pred _ hlen
  refine ⟨?_, hshort⟩
  rw [SortTableByColumn_accepted tv colIndex hacc,
    sortArray_valid (gridOf tv) colIndex lr ur lc uc hv hcol, hshort]
  simp only
  rw [writeRows_gridRows (gridOf tv) lr ur lc uc hv, withArray_gridOf]

/-- A single row holding an error cell, which has no text, and a grid with no rows, are
returned with status 0 and unchanged. -/
theorem short_grid_unchanged_witness :
    SortTableByColumn (some (sampleTable oneErrorGrid)) (some 1) =
      (0, some (sampleTable oneErrorGrid)) ∧
    SortTableByColumn (some (sampleTable noRowGrid)) (some 1) =
      (0, some (sampleTable noRowGrid)) :=
  ⟨(short_grid_unchanged (sampleTable oneErrorGrid) 1 1 1 1 1 (by decide)
      ⟨⟨⟨rfl, rfl, rfl, rfl⟩, by decide, by decide, by decide⟩, fun _ _ _ _ _ _ => ⟨rfl, rfl⟩⟩
      (by decide) (by decide)).1,
   (short_grid_unchanged (sampleTable noRowGrid) 1 1 0 1 1 (by decide)
      ⟨⟨⟨rfl, rfl, rfl, rfl⟩, by decide, by decide, by decide⟩, fun _ _ _ _ _ _ => ⟨rfl, rfl⟩⟩
      (by decide) (by decide)).1⟩

/-- C11 (evaluation at the failing input). The 3 x 1 grid holding -2.0, -1.0 and the
string "-15" is valid and already in strictly ascending comparator order on column 1: the
comparator reports every row as less than every later row, and no row as less than the
row just above it. The call returns status 0 but moves the string row to the top, so the
grid afterwards is not the grid before. -/
theorem ascending_mixed_rows_reordered :
    ValidGrid (gridOf (sampleTable ascendingMixedGrid)) 1 3 1 1 ∧
    gridRows (gridOf (sampleTable ascendingMixedGrid)) =
      [⟨[negTwoCell]⟩, ⟨[negOneCell]⟩, ⟨[minusFifteenTextCell]⟩] ∧
    ascendingBy 1 (gridRows (gridOf (sampleTable ascendingMixedGrid))) = true ∧
    compareRows 1 ⟨[negTwoCell]⟩ ⟨[minusFifteenTextCell]⟩ = some true ∧
    compareRows 1 ⟨[negOneCell]⟩ ⟨[negTwoCell]⟩ = some false ∧
    compareRows 1 ⟨[minusFifteenTextCell]⟩ ⟨[negOneCell]⟩ = some false ∧
    (SortTableByColumn (some (sampleTable ascendingMixedGrid)) (some 1)).1 = 0 ∧
    rowsAfter (SortTableByColumn (some (sampleTable ascendingMixedGrid)) (some 1)) =
      [⟨[minusFifteenTextCell]⟩, ⟨[negTwoCell]⟩, ⟨[negOneCell]⟩] ∧
    rowsAfter (SortTableByColumn (some (sampleTable ascendingMixedGrid)) (some 1)) ≠
      gridRows (gridOf (sampleTable ascendingMixedGrid)) :=
  ⟨⟨⟨⟨rfl, rfl, rfl, rfl⟩, by decide, by decide, by decide⟩, fun _ _ _ _ _ _ => ⟨rfl, rfl⟩⟩,
    by decide, by decide, by decide, by decide, by decide, by decide, by decide, by decide⟩

theorem cellLess_numeric (a b : VARIANT) (hboth : ¬ (a.vt = VT_I4 ∧ b.vt = VT_I4))
    (ha : a.vt = VT_R8 ∨ a.vt = VT_I4 ∨ a.vt = VT_DATE) :
    cellLess a b = some (dblLess a.raw b.raw) := by
  unfold cellLess
  rw [if_neg hboth, if_pos ha]

set_option exponentiation.threshold 2100 in
/-- C13 (evaluation at the failing input). For the integer cell 5 on the left and the
float cell 1.0 on the right the comparator returns true, reading the integer's bytes as a
floating-point number, while the numeric comparison of the integer value 5 against 1.0 is
false; in the other direction it returns false although 1.0 is numerically less than 5. -/
theorem integer_against_float_misordered :
    fiveCell.vt = VT_I4 ∧ fiveCell.lVal = 5 ∧
    oneFloatCell.vt = VT_R8 ∧ dblScaled oneFloatCell.raw = ((2 ^ 1074 : Nat) : Int) ∧
    cellLess fiveCell oneFloatCell = some true ∧
    intLessDbl fiveCell.lVal oneFloatCell.raw = false ∧
    cellLess oneFloatCell fiveCell = some false := by
  refine ⟨rfl, by decide, rfl, by decide, by decide, by decide, by decide⟩

/-! ## All-integer target columns -/

theorem varArray_withArray_vt (tv : TableVariant) (sa : SAFEARRAY) :
    (varArray (withArray tv sa)).vt = (varArray tv).vt := by
  unfold varArray withArray
  by_cases h : isByRef tv.vt = true <;> simp [h]

theorem sortArray_validGrid (sa : SAFEARRAY) (colIndex lr ur lc uc : Int)
    (hv : ValidGrid sa lr ur lc uc) : ValidGrid (sortArray sa colIndex).2 lr ur lc uc := by
  obtain ⟨f1, f2, f3, f4, f5, f6⟩ := sortArray_frame sa colIndex
  refine ⟨⟨⟨f1.trans hv.lBound1, f2.trans hv.uBound1, f3.trans hv.lBound2,
    f4.trans hv.uBound2⟩, hv.inLong, hv.rows, hv.cols⟩, ?_⟩
  intro r c h1 h2 h3 h4
  rw [f5, f6]
  exact hv.access r c h1 h2 h3 h4

theorem compareRows_int_false (colIndex : Int) (x y : RowData)
    (hx : (keyCell colIndex x).vt = VT_I4) (hy : (keyCell colIndex y).vt = VT_I4)
    (h : (keyCell colIndex y).lVal ≤ (keyCell colIndex x).lVal) :
    compareRows colIndex x y = some false := by
  rw [compareRows_int colIndex x y hx hy]
  simp only [Option.some.injEq, decide_eq_false_iff_not]
  omega

theorem keep_of_int_sorted (colIndex : Int) (rows : List RowData)
    (hint : ∀ a ∈ rows, (keyCell colIndex a).vt = VT_I4)
    (hs : List.Pairwise (fun a b : RowData =>
      (keyCell colIndex a).lVal ≤ (keyCell colIndex b).lVal) rows) :
    List.Pairwise (fun y x => compareRows colIndex x y = some false) rows := by
  refine (List.Pairwise.and_mem.mp hs).imp ?_
  intro y x ⟨hy, hx, h⟩
  exact compareRows_int_false colIndex x y (hint x hx) (hint y hy) h

/-- On a valid grid whose target column holds only integers the sort returns, and its
result is a permutation of the rows with the integer keys in ascending order. -/
theorem std_sort_int (sa : SAFEARRAY) (colIndex : Int)
    (hint : ∀ a ∈ gridRows sa, (keyCell colIndex a).vt = VT_I4) :
    ∃ sorted, std_sort (compareRows colIndex) (gridRows sa) = some sorted ∧
      sorted.Perm (gridRows sa) ∧
      List.Pairwise (fun a b : RowData =>
        (keyCell colIndex a).lVal ≤ (keyCell colIndex b).lVal) sorted := by
  have htot : ∀ a b : RowData, (keyCell colIndex a).vt = VT_I4 →
      (keyCell colIndex b).vt = VT_I4 → ∃ t, compareRows colIndex a b = some t :=
    fun a b ha hb => ⟨_, compareRows_int colIndex a b ha hb⟩
  have hasym : ∀ a b : RowData, (keyCell colIndex a).vt = VT_I4 →
      (keyCell colIndex b).vt = VT_I4 → compareRows colIndex a b = some true →
      compareRows colIndex b a = some false := by
    intro a b ha hb h
    rw [compareRows_int colIndex a b ha hb] at h
    have h1 : (keyCell colIndex a).lVal < (keyCell colIndex b).lVal := by simpa using h
    exact compareRows_int_false colIndex b a hb ha (le_of_lt h1)
  obtain ⟨sorted, hs⟩ := std_sort_isSome (compareRows colIndex)
    (fun a => (keyCell colIndex a).vt = VT_I4) htot _ hint
  have hp := std_sort_perm _ _ _ hs
  have hch := std_sort_chain (compareRows colIndex)
    (fun a => (keyCell colIndex a).vt = VT_I4) hasym _ _ hint hs
  have hkey : ∀ a ∈ sorted, (keyCell colIndex a).vt = VT_I4 :=
    fun a ha => hint a (hp.mem_iff.mp ha)
  have hch2 : List.Chain' (fun a b : RowData =>
      (keyCell colIndex a).lVal ≤ (keyCell colIndex b).lVal) sorted := by
    refine (List.Chain'.iff_mem.mp hch).imp ?_
    intro a b hab
    have h3 := hab.2.2
    rw [compareRows_int colIndex b a (hkey b hab.2.1) (hkey a hab.1)] at h3
    have h4 : ¬ ((keyCell colIndex b).lVal < (keyCell colIndex a).lVal) := by
      simpa using h3
    exact not_lt.mp h4
  have htr : IsTrans RowData (fun a b : RowData =>
      (keyCell colIndex a).lVal ≤ (keyCell colIndex b).lVal) :=
    ⟨fun _ _ _ h1 h2 => le_trans h1 h2⟩
  exact ⟨sorted, hs, hp, (@List.chain'_iff_pairwise RowData _ htr sorted).mp hch2⟩

/-- On a valid grid whose target column holds only integers, already in strictly
ascending order, the call returns status 0 and the table is exactly as it was. -/
theorem integer_ascending_unchanged (tv : TableVariant) (colIndex lr ur lc uc : Int)
    (hacc : acceptsContainer (varArray tv).vt = true)
    (hv : ValidGrid (gridOf tv) lr ur lc uc)
    (hcol : 1 ≤ colIndex ∧ colIndex ≤ uc - lc + 1)
    (hint : ∀ v ∈ targetColumn (gridOf tv) colIndex, v.vt = VT_I4)
    (hasc : List.Pairwise (fun x y : Int => x < y)
      ((targetColumn (gridOf tv) colIndex).map VARIANT.lVal)) :
    SortTableByColumn (some tv) (some colIndex) = (0, some tv) := by
  rw [targetColumn_eq _ colIndex lr ur lc uc hv.toGridBounds hcol] at hint hasc
  have hP : ∀ a ∈ gridRows (gridOf tv), (keyCell colIndex a).vt = VT_I4 :=
    fun a ha => hint _ (List.mem_map_of_mem _ ha)
  have hasc2 : List.Pairwise (fun a b : RowData =>
      (keyCell colIndex a).lVal < (keyCell colIndex b).lVal) (gridRows (gridOf tv)) := by
    rw [List.map_map] at hasc
    exact List.pairwise_map.mp hasc
  have hle : List.Pairwise (fun a b : RowData =>
      (keyCell colIndex a).lVal ≤ (keyCell colIndex b).lVal) (gridRows (gridOf tv)) := by
    refine hasc2.imp ?_
    intro a b h
    exact Int.le_of_lt h
  rw [SortTableByColumn_accepted tv colIndex hacc,
    sortArray_keep (gridOf tv) colIndex lr ur lc uc hv hcol
      (keep_of_int_sorted colIndex _ hP hle), withArray_gridOf]


/-- On a valid grid whose target column holds only integers, sorting twice by the same
column gives what sorting once gives: the second call returns status 0 and leaves the
table of the first call as it is. -/
theorem integer_sort_twice (tv : TableVariant) (colIndex lr ur lc uc : Int)
    (hacc : acceptsContainer (varArray tv).vt = true)
    (hv : ValidGrid (gridOf tv) lr ur lc uc)
    (hcol : 1 ≤ colIndex ∧ colIndex ≤ uc - lc + 1)
    (hint : ∀ v ∈ targetColumn (gridOf tv) colIndex, v.vt = VT_I4) :
    ∃ tv1, SortTableByColumn (some tv) (some colIndex) = (0, some tv1) ∧
      SortTableByColumn (some tv1) (some colIndex) = (0, some tv1) := by
  rw [targetColumn_eq _ colIndex lr ur lc uc hv.toGridBounds hcol] at hint
  have hP : ∀ a ∈ gridRows (gridOf tv), (keyCell colIndex a).vt = VT_I4 :=
    fun a ha => hint _ (List.mem_map_of_mem _ ha)
  obtain ⟨sorted, hs, hp, hpw⟩ := std_sort_int (gridOf tv) colIndex hP
  have hv1 : ValidGrid (sortArray (gridOf tv) colIndex).2 lr ur lc uc :=
    sortArray_validGrid (gridOf tv) colIndex lr ur lc uc hv
  rcases sortArray_cases (gridOf tv) colIndex lr ur lc uc hv hcol with
    ⟨hnone, _⟩ | ⟨sorted1, hs1, hst, hrows, _⟩
  · rw [hnone] at hs; exact absurd hs (by simp)
  · rw [hs] at hs1
    simp only [Option.some.injEq] at hs1
    subst hs1
    refine ⟨withArray tv (sortArray (gridOf tv) colIndex).2, ?_, ?_⟩
    · rw [SortTableByColumn_accepted tv colIndex hacc, hst]
    · have hacc1 : acceptsContainer
          (varArray (withArray tv (sortArray (gridOf tv) colIndex).2)).vt = true := by
        rw [varArray_withArray_vt]; exact hacc
      rw [SortTableByColumn_accepted _ colIndex hacc1, gridOf_withArray]
      have hk : List.Pairwise (fun y x => compareRows colIndex x y = some false)
          (gridRows (sortArray (gridOf tv) colIndex).2) := by
        rw [hrows]
        exact keep_of_int_sorted colIndex _ (fun a ha => hP a (hp.mem_iff.mp ha)) hpw
      rw [sortArray_keep _ colIndex lr ur lc uc hv1 hcol hk]
      have e := withArray_gridOf (withArray tv (sortArray (gridOf tv) colIndex).2)
      rw [gridOf_withArray] at e
      rw [e]

/-! ## The order key against the value of a bit pattern -/

theorem magOf_lt (m1 m2 : Nat) (h : m1 < m2) : magOf m1 < magOf m2 := by
  unfold magOf
  have d1 := Nat.div_add_mod m1 4503599627370496
  have d2 := Nat.div_add_mod m2 4503599627370496
  have hf1 : m1 % 4503599627370496 < 4503599627370496 := Nat.mod_lt _ (by decide)
  have hf2 : m2 % 4503599627370496 < 4503599627370496 := Nat.mod_lt _ (by decide)
  generalize m1 / 4503599627370496 = e1 at *
  generalize m2 / 4503599627370496 = e2 at *
  generalize m1 % 4503599627370496 = f1 at *
  generalize m2 % 4503599627370496 = f2 at *
  have hcase : e1 < e2 ∨ (e1 = e2 ∧ f1 < f2) := by omega
  rcases hcase with he | ⟨he, hf⟩
  · have he2 : e2 ≠ 0 := by omega
    rw [if_neg he2]
    have hP2 : 1 ≤ 2 ^ (e2 - 1) := Nat.one_le_two_pow
    by_cases he1 : e1 = 0
    · rw [if_pos he1]
      calc f1 < 4503599627370496 := hf1
        _ ≤ 4503599627370496 + f2 := Nat.le_add_right _ _
        _ = (4503599627370496 + f2) * 1 := (Nat.mul_one _).symm
        _ ≤ (4503599627370496 + f2) * 2 ^ (e2 - 1) := Nat.mul_le_mul_left _ hP2
    · rw [if_neg he1]
      have hpow : 2 * 2 ^ (e1 - 1) ≤ 2 ^ (e2 - 1) := by
        have h1 : 2 * 2 ^ (e1 - 1) = 2 ^ (e1 - 1 + 1) := by rw [Nat.pow_succ]; omega
        rw [h1]
        exact Nat.pow_le_pow_right (by decide) (by omega)
      have hP1 : 1 ≤ 2 ^ (e1 - 1) := Nat.one_le_two_pow
      calc (4503599627370496 + f1) * 2 ^ (e1 - 1)
          < (4503599627370496 + 4503599627370496) * 2 ^ (e1 - 1) :=
            Nat.mul_lt_mul_of_pos_right (by omega) hP1
        _ = 4503599627370496 * (2 * 2 ^ (e1 - 1)) := by ring
        _ ≤ 4503599627370496 * 2 ^ (e2 - 1) := Nat.mul_le_mul_left _ hpow
        _ ≤ (4503599627370496 + f2) * 2 ^ (e2 - 1) :=
            Nat.mul_le_mul_right _ (Nat.le_add_right _ _)
  · subst he
    by_cases he1 : e1 = 0
    · rw [if_pos he1, if_pos he1]; exact hf
    · rw [if_neg he1, if_neg he1]
      exact Nat.mul_lt_mul_of_pos_right (by omega) Nat.one_le_two_pow

theorem magOf_lt_iff (m1 m2 : Nat) : magOf m1 < magOf m2 ↔ m1 < m2 := by
  constructor
  · intro h
    by_contra hn
    rcases Nat.lt_or_ge m2 m1 with h1 | h1
    · exact absurd (magOf_lt m2 m1 h1) (by omega)
    · have : m1 = m2 := by omega
      subst this
      exact absurd h (Nat.lt_irrefl _)
  · exact magOf_lt m1 m2

theorem magOf_zero : magOf 0 = 0 := by decide

theorem magOf_eq_zero_iff (m : Nat) : magOf m = 0 ↔ m = 0 := by
  constructor
  · intro h
    by_contra hn
    have := magOf_lt 0 m (by omega)
    rw [magOf_zero] at this
    omega
  · intro h; rw [h]; exact magOf_zero

theorem dblScaled_eq (b : Nat) :
    dblScaled b = if (b / 9223372036854775808) % 2 = 0
      then ((magOf (b % 9223372036854775808) : Nat) : Int)
      else -((magOf (b % 9223372036854775808) : Nat) : Int) := by
  have e1 : b % 9223372036854775808 / 4503599627370496 = (b / 4503599627370496) % 2048 := by
    omega
  have e2 : b % 9223372036854775808 % 4503599627370496 = b % 4503599627370496 := by omega
  unfold dblScaled magOf
  simp only [e1, e2]

/-- The order of the keys is the order of the values: `dblKey` is a faithful order key. -/
theorem dblKey_lt_iff (x y : Nat) : dblKey x < dblKey y ↔ dblScaled x < dblScaled y := by
  rw [dblScaled_eq x, dblScaled_eq y]
  unfold dblKey
  have hxy := magOf_lt_iff (x % 9223372036854775808) (y % 9223372036854775808)
  have hyx := magOf_lt_iff (y % 9223372036854775808) (x % 9223372036854775808)
  have hx0 := magOf_eq_zero_iff (x % 9223372036854775808)
  have hy0 := magOf_eq_zero_iff (y % 9223372036854775808)
  generalize magOf (x % 9223372036854775808) = gx at *
  generalize magOf (y % 9223372036854775808) = gy at *
  generalize x % 9223372036854775808 = mx at *
  generalize y % 9223372036854775808 = my at *
  by_cases sx : (x / 9223372036854775808) % 2 = 0 <;>
    by_cases sy : (y / 9223372036854775808) % 2 = 0 <;>
    simp only [sx, sy, if_true, if_false] <;> omega

/-- The comparison made on the union member `date` is the comparison of the two values:
true exactly when neither pattern is a NaN and the left value is less than the right. -/
theorem dblLess_iff (x y : Nat) :
    dblLess x y = true ↔ isNaN x = false ∧ isNaN y = false ∧ dblScaled x < dblScaled y := by
  unfold dblLess
  rw [← dblKey_lt_iff]
  cases isNaN x <;> cases isNaN y <;> simp

/-! ## The array stage without assuming that element accesses succeed -/

/-- With consistent bounds and a target column in range, the array stage sorts the rows it
extracted: a raising comparison gives status 5 and the grid untouched, otherwise the rows
are written back in the order found and the status is 0. -/
theorem sortArray_bounds (sa : SAFEARRAY) (colIndex lr ur lc uc : Int)
    (hb : GridBounds sa lr ur lc uc) (hcol : 1 ≤ colIndex ∧ colIndex ≤ uc - lc + 1) :
    (std_sort (compareRows colIndex)
        (extractRows sa lr lc (uc - lc + 1).toNat (List.range (ur - lr + 1).toNat)
          VARIANT.empty) = none → sortArray sa colIndex = (5, sa)) ∧
    (∀ sorted, std_sort (compareRows colIndex)
        (extractRows sa lr lc (uc - lc + 1).toNat (List.range (ur - lr + 1).toNat)
          VARIANT.empty) = some sorted →
      sortArray sa colIndex =
        (0, writeRows lr lc (uc - lc + 1).toNat sorted (List.range (ur - lr + 1).toNat) sa)) := by
  have hr := hb.rows
  have hc := hb.cols
  have e1 : wrapLong (ur - lr + 1) = ur - lr + 1 := wrapLong_eq _ (by unfold InLong; omega)
  have e2 : wrapLong (uc - lc + 1) = uc - lc + 1 := wrapLong_eq _ (by unfold InLong; omega)
  have h7 : ¬ (colIndex < 1 ∨ colIndex > uc - lc + 1) := by omega
  have h5 : ¬ (ur - lr + 1 < 0) := by omega
  constructor
  · intro h
    unfold sortArray
    simp only [hb.lBound1, hb.uBound1, hb.lBound2, hb.uBound2, e1, e2, if_neg h7, if_neg h5, h]
  · intro sorted h
    unfold sortArray
    simp only [hb.lBound1, hb.uBound1, hb.lBound2, hb.uBound2, e1, e2, if_neg h7, if_neg h5, h]

theorem extractCells_all (Q : VARIANT → Prop) (sa : SAFEARRAY) (lr lc : Int) (i : Nat) :
    ∀ (js : List Nat) (val : VARIANT), Q val →
    (∀ j ∈ js, sa.getOk (wrapLong (i + lr)) (wrapLong (j + lc)) = true →
      Q (sa.elems (wrapLong (i + lr)) (wrapLong (j + lc)))) →
    (∀ v ∈ (extractCells sa lr lc i js val).1, Q v) ∧ Q (extractCells sa lr lc i js val).2 := by
  intro js
  induction js with
  | nil => intro val hval _; exact ⟨fun v hv => absurd hv (List.not_mem_nil _), hval⟩
  | cons j js ih =>
    intro val hval h
    have hv1 : Q (SafeArrayGetElement sa (wrapLong (i + lr)) (wrapLong (j + lc)) val) := by
      unfold SafeArrayGetElement
      by_cases hg : sa.getOk (wrapLong (i + lr)) (wrapLong (j + lc)) = true
      · rw [if_pos hg]; exact h j (List.mem_cons_self _ _) hg
      · rw [if_neg hg]; exact hval
    obtain ⟨ih1, ih2⟩ := ih _ hv1 (fun k hk => h k (List.mem_cons_of_mem _ hk))
    simp only [extractCells]
    refine ⟨?_, ih2⟩
    intro v hv
    rcases List.mem_cons.mp hv with rfl | hm
    · exact hv1
    · exact ih1 v hm

theorem extractRows_all (Q : VARIANT → Prop) (sa : SAFEARRAY) (lr lc : Int) (cols : Nat) :
    ∀ (is : List Nat) (val : VARIANT), Q val →
    (∀ i ∈ is, ∀ j ∈ List.range cols,
      sa.getOk (wrapLong (i + lr)) (wrapLong (j + lc)) = true →
      Q (sa.elems (wrapLong (i + lr)) (wrapLong (j + lc)))) →
    ∀ a ∈ extractRows sa lr lc cols is val, ∀ v ∈ a.cells, Q v := by
  intro is
  induction is with
  | nil => intro val _ _ a ha; exact absurd ha (List.not_mem_nil _)
  | cons i is ih =>
    intro val hval h a ha
    obtain ⟨h1, h2⟩ := extractCells_all Q sa lr lc i (List.range cols) val hval
      (h i (List.mem_cons_self _ _))
    simp only [extractRows] at ha
    rcases List.mem_cons.mp ha with rfl | hm
    · exact h1
    · exact ih _ h2 (fun k hk => h k (List.mem_cons_of_mem _ hk)) a hm

/-- With consistent bounds every extracted cell is the empty value or an element inside
the bounds, so a property of both holds for every extracted cell. -/
theorem extractRows_inbounds (Q : VARIANT → Prop) (sa : SAFEARRAY) (lr ur lc uc : Int)
    (hb : GridBounds sa lr ur lc uc) (hemp : Q VARIANT.empty)
    (hQ : ∀ r c, lr ≤ r → r ≤ ur → lc ≤ c → c ≤ uc → Q (sa.elems r c)) :
    ∀ a ∈ extractRows sa lr lc (uc - lc + 1).toNat (List.range (ur - lr + 1).toNat)
      VARIANT.empty, ∀ v ∈ a.cells, Q v := by
  obtain ⟨h1, h2, h3, h4⟩ := hb.inLong
  have hr := hb.rows
  have hc := hb.cols
  unfold InLong at h1 h2 h3 h4
  apply extractRows_all Q sa lr lc _ _ _ hemp
  intro i hi j hj _
  rw [List.mem_range] at hi hj
  have wi : wrapLong ((i : Int) + lr) = (i : Int) + lr := by
    apply wrapLong_eq; unfold InLong; omega
  have wj : wrapLong ((j : Int) + lc) = (j : Int) + lc := by
    apply wrapLong_eq; unfold InLong; omega
  rw [wi, wj]
  exact hQ _ _ (by omega) (by omega) (by omega) (by omega)

/-- With consistent bounds and every read inside the bounds succeeding, the extracted
rows are the rows of the grid. -/
theorem extractRows_reads (sa : SAFEARRAY) (lr ur lc uc : Int) (hb : GridBounds sa lr ur lc uc)
    (hget : ∀ r c, lr ≤ r → r ≤ ur → lc ≤ c → c ≤ uc → sa.getOk r c = true)
    (val : VARIANT) :
    extractRows sa lr lc (uc - lc + 1).toNat (List.range (ur - lr + 1).toNat) val =
      gridRows sa := by
  obtain ⟨h1, h2, h3, h4⟩ := hb.inLong
  have hr := hb.rows
  have hc := hb.cols
  unfold InLong at h1 h2 h3 h4
  have wi : ∀ i ∈ List.range (ur - lr + 1).toNat, wrapLong ((i : Int) + lr) = (i : Int) + lr := by
    intro i hi
    rw [List.mem_range] at hi
    apply wrapLong_eq; unfold InLong; omega
  have wj : ∀ j ∈ List.range (uc - lc + 1).toNat, wrapLong ((j : Int) + lc) = (j : Int) + lc := by
    intro j hj
    rw [List.mem_range] at hj
    apply wrapLong_eq; unfold InLong; omega
  rw [extractRows_eq, gridRows_eq sa lr ur lc uc hb]
  · apply List.map_congr_left
    intro i hi
    congr 1
    apply List.map_congr_left
    intro j hj
    rw [wi i hi, wj j hj]
  · intro i hi j hj
    rw [wi i hi, wj j hj]
    rw [List.mem_range] at hi hj
    exact hget _ _ (by omega) (by omega) (by omega) (by omega)

theorem keyCell_all (Q : VARIANT → Prop) (colIndex : Int) (a : RowData)
    (hemp : Q VARIANT.empty) (ha : ∀ v ∈ a.cells, Q v) : Q (keyCell colIndex a) := by
  unfold keyCell
  rw [List.getD_eq_getElem?_getD]
  cases h : a.cells[(colIndex - 1).toNat]? with
  | none => exact hemp
  | some v => exact ha v (List.getElem?_mem h)

/-- The sort raises when its first comparison, the second element against the first,
raises. -/
theorem std_sort_first_raises {α : Type} (pred : α → α → Option Bool) (a b : α)
    (rest : List α) (h : pred b a = none) : std_sort pred (a :: b :: rest) = none := by
  simp [std_sort, insertionLoop, insertStep, h]

theorem empty_has_text : VARIANT.empty.bstr ≠ none := by decide

/-- C4 (amended). On every grid that passes validation (container accepted, bounds
retrievable and consistent) and every target column in [1, columnCount], whether or not
the element accesses succeed: the status is 0 or 5; it is 5 exactly when the sort of the
extracted rows raises, which only a failing text conversion in the comparator causes, and
the table is then exactly as it was; it is 0 whenever every cell inside the bounds has a
conversion to text. When the element reads succeed, the status is 0 whenever every cell of
the target column has a conversion to text, and it is 5 when the grid has at least two
rows and no cell of the target column is a float, integer or date or has a conversion to
text (as with error cells). -/
theorem status_zero_or_five (tv : TableVariant) (colIndex lr ur lc uc : Int)
    (hacc : acceptsContainer (varArray tv).vt = true)
    (hb : GridBounds (gridOf tv) lr ur lc uc)
    (hcol : 1 ≤ colIndex ∧ colIndex ≤ uc - lc + 1) :
    ((SortTableByColumn (some tv) (some colIndex)).1 = 0 ∨
      (SortTableByColumn (some tv) (some colIndex)).1 = 5) ∧
    ((SortTableByColumn (some tv) (some colIndex)).1 = 5 ↔
      std_sort (compareRows colIndex) (rowVectorOf (gridOf tv) lr ur lc uc) = none) ∧
    ((SortTableByColumn (some tv) (some colIndex)).1 = 5 →
      SortTableByColumn (some tv) (some colIndex) = (5, some tv)) ∧
    ((∀ r c, lr ≤ r → r ≤ ur → lc ≤ c → c ≤ uc → ((gridOf tv).elems r c).bstr ≠ none) →
      (SortTableByColumn (some tv) (some colIndex)).1 = 0) ∧
    ((∀ r c, lr ≤ r → r ≤ ur → lc ≤ c → c ≤ uc → (gridOf tv).getOk r c = true) →
      ((∀ v ∈ targetColumn (gridOf tv) colIndex, v.bstr ≠ none) →
        (SortTableByColumn (some tv) (some colIndex)).1 = 0) ∧
      (2 ≤ ur - lr + 1 →
        (∀ v ∈ targetColumn (gridOf tv) colIndex,
          ¬ (v.vt = VT_R8 ∨ v.vt = VT_I4 ∨ v.vt = VT_DATE) ∧ v.bstr = none) →
        (SortTableByColumn (some tv) (some colIndex)).1 = 5)) := by
  rw [SortTableByColumn_accepted tv colIndex hacc]
  obtain ⟨hnone, hsome⟩ := sortArray_bounds (gridOf tv) colIndex lr ur lc uc hb hcol
  have hiff : (sortArray (gridOf tv) colIndex).1 = 5 ↔
      std_sort (compareRows colIndex) (rowVectorOf (gridOf tv) lr ur lc uc) = none := by
    unfold rowVectorOf
    cases hs : std_sort (compareRows colIndex) (extractRows (gridOf tv) lr lc
        (uc - lc + 1).toNat (List.range (ur - lr + 1).toNat) VARIANT.empty) with
    | none => rw [hnone hs]; simp
    | some sorted => rw [hsome sorted hs]; simp
  have h05 : (sortArray (gridOf tv) colIndex).1 = 0 ∨ (sortArray (gridOf tv) colIndex).1 = 5 := by
    cases hs : std_sort (compareRows colIndex) (extractRows (gridOf tv) lr lc
        (uc - lc + 1).toNat (List.range (ur - lr + 1).toNat) VARIANT.empty) with
    | none => rw [hnone hs]; exact Or.inr rfl
    | some sorted => rw [hsome sorted hs]; exact Or.inl rfl
  have hzero : (∀ a ∈ rowVectorOf (gridOf tv) lr ur lc uc, (keyCell colIndex a).bstr ≠ none) →
      (sortArray (gridOf tv) colIndex).1 = 0 := by
    intro hP
    obtain ⟨r, hr⟩ := std_sort_isSome (compareRows colIndex)
      (fun a => (keyCell colIndex a).bstr ≠ none)
      (fun a b ha hb1 => cellLess_isSome _ _ ha hb1) _ hP
    rcases h05 with h | h
    · exact h
    · rw [hiff.mp h] at hr; exact absurd hr (by simp)
  refine ⟨h05, hiff, ?_, ?_, ?_⟩
  · intro h
    simp only at h
    have hs := hiff.mp h
    unfold rowVectorOf at hs
    rw [hnone hs, withArray_gridOf]
  · intro hall
    apply hzero
    intro a ha
    exact keyCell_all (fun v => v.bstr ≠ none) colIndex a empty_has_text
      (extractRows_inbounds (fun v => v.bstr ≠ none) (gridOf tv) lr ur lc uc hb
        empty_has_text hall a ha)
  · intro hget
    have hrows : rowVectorOf (gridOf tv) lr ur lc uc = gridRows (gridOf tv) :=
      extractRows_reads (gridOf tv) lr ur lc uc hb hget VARIANT.empty
    have htc := targetColumn_eq (gridOf tv) colIndex lr ur lc uc hb hcol
    constructor
    · intro htxt
      apply hzero
      rw [hrows]
      intro a ha
      apply htxt
      rw [htc]
      exact List.mem_map_of_mem _ ha
    · intro h2 herr
      apply hiff.mpr
      rw [hrows]
      have hlen := (gridRows_cells_length (gridOf tv) lr ur lc uc hb).1
      rw [htc] at herr
      match hg : gridRows (gridOf tv), hlen with
      | [], hl => simp at hl; omega
      | [_], hl => simp at hl; omega
      | a :: b :: rest, _ =>
        apply std_sort_first_raises
        rw [hg] at herr
        have hbk := herr (keyCell colIndex b) (by simp)
        unfold compareRows
        rw [cellLess_text _ _ hbk.1, hbk.2]

/-- Witness for C4 (amended): the 4 x 3 integer grid sorted by its second column gives
status 0, and the 2 x 1 grid of error cells gives status 5. -/
theorem status_zero_or_five_witness :
    (SortTableByColumn (some (sampleTable intGrid)) (some 2)).1 = 0 ∧
    (SortTableByColumn (some (sampleTable errorGrid)) (some 1)).1 = 5 :=
  ⟨((status_zero_or_five (sampleTable intGrid) 2 0 3 5 7 (by decide)
      ⟨⟨rfl, rfl, rfl, rfl⟩, by decide, by decide, by decide⟩ (by decide)).2.2.2.2
      (fun _ _ _ _ _ _ => rfl)).1 (by decide),
   ((status_zero_or_five (sampleTable errorGrid) 1 1 2 1 1 (by decide)
      ⟨⟨rfl, rfl, rfl, rfl⟩, by decide, by decide, by decide⟩ (by decide)).2.2.2.2
      (fun _ _ _ _ _ _ => rfl)).2 (by decide) (by decide)⟩

/-! ## Failing element accesses -/

/-- C2 (evaluation at the failing input). The 2 x 1 grid holding 7 above 3 passes
validation (container accepted, bounds retrievable and consistent, column 1 in range), but
the read of its second row fails. The call returns status 0 and the grid ends up holding
7 in both rows: the row holding 3 is lost, so the rows afterwards are not a permutation of
the rows before. -/
theorem read_failure_rows_not_permuted :
    acceptsContainer (varArray (sampleTable readFailGrid)).vt = true ∧
    GridBounds (gridOf (sampleTable readFailGrid)) 1 2 1 1 ∧
    readFailGrid.getOk 2 1 = false ∧
    (SortTableByColumn (some (sampleTable readFailGrid)) (some 1)).1 = 0 ∧
    gridRows (gridOf (sampleTable readFailGrid)) = [⟨[intCell 7 [55]]⟩, ⟨[intCell 3 [51]]⟩] ∧
    rowsAfter (SortTableByColumn (some (sampleTable readFailGrid)) (some 1)) =
      [⟨[intCell 7 [55]]⟩, ⟨[intCell 7 [55]]⟩] ∧
    ¬ (rowsAfter (SortTableByColumn (some (sampleTable readFailGrid)) (some 1))).Perm
      (gridRows (gridOf (sampleTable readFailGrid))) := by
  refine ⟨by decide, ⟨⟨rfl, rfl, rfl, rfl⟩, by decide, by decide, by decide⟩, by decide,
    by decide, by decide, by decide, ?_⟩
  intro h
  have h1 : (⟨[intCell 3 [51]]⟩ : RowData) ∈ gridRows (gridOf (sampleTable readFailGrid)) := by
    decide
  have h2 : (⟨[intCell 3 [51]]⟩ : RowData) ∉
      rowsAfter (SortTableByColumn (some (sampleTable readFailGrid)) (some 1)) := by decide
  exact h2 (h.mem_iff.mpr h1)

/-- C3 (evaluation at the failing input). The 3 x 1 grid holding the integers 3, 1, 2
passes validation and its target column holds only 32-bit integers, but the write to its
first row fails. The call returns status 0 and the column afterwards reads 3, 2, 3: it is
not in ascending order and the row holding 1 is lost. -/
theorem write_failure_integer_column_unsorted :
    acceptsContainer (varArray (sampleTable threeIntWriteFailGrid)).vt = true ∧
    GridBounds (gridOf (sampleTable threeIntWriteFailGrid)) 1 3 1 1 ∧
    (∀ v ∈ targetColumn (gridOf (sampleTable threeIntWriteFailGrid)) 1, v.vt = VT_I4) ∧
    (targetColumn (gridOf (sampleTable threeIntWriteFailGrid)) 1).map VARIANT.lVal = [3, 1, 2] ∧
    threeIntWriteFailGrid.putOk 1 1 = false ∧
    (SortTableByColumn (some (sampleTable threeIntWriteFailGrid)) (some 1)).1 = 0 ∧
    (rowsAfter (SortTableByColumn (some (sampleTable threeIntWriteFailGrid)) (some 1))).map
      (fun r => r.cells.map VARIANT.lVal) = [[3], [2], [3]] ∧
    (⟨[intCell 1 [49]]⟩ : RowData) ∈ gridRows (gridOf (sampleTable threeIntWriteFailGrid)) ∧
    (⟨[intCell 1 [49]]⟩ : RowData) ∉
      rowsAfter (SortTableByColumn (some (sampleTable threeIntWriteFailGrid)) (some 1)) := by
  refine ⟨by decide, ⟨⟨rfl, rfl, rfl, rfl⟩, by decide, by decide, by decide⟩, by decide,
    by decide, by decide, by decide, by decide, by decide, by decide⟩

/-- C17 (evaluation at the failing input). The 1 x 1 grid holding the integer 7 passes
validation and has exactly one row, but the read of its cell fails. The call returns
status 0 and writes back the empty value the read left in place, so the grid is not
unchanged. -/
theorem read_failure_single_row_changed :
    acceptsContainer (varArray (sampleTable oneCellReadFailGrid)).vt = true ∧
    GridBounds (gridOf (sampleTable oneCellReadFailGrid)) 1 1 1 1 ∧
    oneCellReadFailGrid.getOk 1 1 = false ∧
    gridRows (gridOf (sampleTable oneCellReadFailGrid)) = [⟨[intCell 7 [55]]⟩] ∧
    (SortTableByColumn (some (sampleTable oneCellReadFailGrid)) (some 1)).1 = 0 ∧
    rowsAfter (SortTableByColumn (some (sampleTable oneCellReadFailGrid)) (some 1)) =
      [⟨[VARIANT.empty]⟩] ∧
    rowsAfter (SortTableByColumn (some (sampleTable oneCellReadFailGrid)) (some 1)) ≠
      gridRows (gridOf (sampleTable oneCellReadFailGrid)) := by
  refine ⟨by decide, ⟨⟨rfl, rfl, rfl, rfl⟩, by decide, by decide, by decide⟩, by decide,
    by decide, by decide, by decide, by decide⟩

end ExcelSort
